import Mathlib

/-!
Verification of the dwdparse decoding engine against its specification.

The definitions below are a shallow embedding of `dwdparse/parsers.py` and
`dwdparse/stations.py`.  Python dictionaries are modelled as association
lists with replace-in-place insertion, Python `None` as an explicit `PyVal.null`
value, Python exceptions as an `Except PyErr` result, and CPython floats as
exact rationals (reals for the one transcendental formula).  Functions keep
the names of the source methods they embed.
-/

set_option maxRecDepth 4000

namespace Dwdparse

/-- Python exceptions that the embedded code can raise. -/
inductive PyErr where
  | keyError (key : String)
  | indexError
  | valueError
  | typeError
  | assertError
  | attrError
  | skipRecord
  deriving DecidableEq, Repr

/-- Values stored in a decoded record or in a message-context dictionary:
Python `None`, numbers (ints and floats collapsed into exact rationals),
strings, and the opaque UTC instants produced by `datetime`. -/
inductive PyVal where
  | null
  | num (q : ℚ)
  | str (s : String)
  | time (t : ℤ)
  deriving DecidableEq, Repr

namespace PyVal

/-- Python truthiness for the values appearing in records. -/
def truthy : PyVal → Bool
  | null => false
  | num q => q ≠ 0
  | str s => s ≠ ""
  | time _ => true

/-- Python `==` between record values (numbers compare numerically,
`None == None` holds, values of different shapes compare unequal). -/
def pyEq : PyVal → PyVal → Bool
  | null, null => true
  | num a, num b => a = b
  | str a, str b => a = b
  | time a, time b => a = b
  | _, _ => false

/-- Python `<` against a numeric constant; comparing a non-number raises
`TypeError` exactly as CPython does. -/
def ltNum : PyVal → ℚ → Except PyErr Bool
  | num a, b => .ok (a < b)
  | _, _ => .error .typeError

/-- Python `>` against a numeric constant; comparing a non-number raises
`TypeError` exactly as CPython does. -/
def gtNum : PyVal → ℚ → Except PyErr Bool
  | num a, b => .ok (a > b)
  | _, _ => .error .typeError

end PyVal

instance {ε α : Type} [DecidableEq ε] [DecidableEq α] :
    DecidableEq (Except ε α) := fun x y =>
  match x, y with
  | .ok a, .ok b =>
      if h : a = b then isTrue (by rw [h]) else isFalse (by simp [h])
  | .error e, .error f =>
      if h : e = f then isTrue (by rw [h]) else isFalse (by simp [h])
  | .ok _, .error _ => isFalse (by simp)
  | .error _, .ok _ => isFalse (by simp)

/-- Whether an `Except` result is an error (a raised Python exception). -/
def isErr {ε α : Type} : Except ε α → Bool
  | .error _ => true
  | .ok _ => false

/-- A Python dictionary with string keys, as an association list in
insertion order. -/
abbrev Dict (α : Type) : Type := List (String × α)

namespace Dict

/-- The empty dictionary. -/
def empty {α : Type} : Dict α := []

/-- `d[k] = v`: replace the value in place if the key exists (keeping its
position), otherwise append the new pair, as Python dictionaries do. -/
def insert {α : Type} : Dict α → String → α → Dict α
  | [], k, v => [(k, v)]
  | (k', v') :: rest, k, v =>
      if k' = k then (k', v) :: rest else (k', v') :: insert rest k v

/-- `d.get(k)`: the value stored under `k`, if any. -/
def get? {α : Type} : Dict α → String → Option α
  | [], _ => none
  | (k', v') :: rest, k => if k' = k then some v' else get? rest k

/-- `d[k]` as an expression: raises `KeyError` when the key is missing. -/
def getE {α : Type} (d : Dict α) (k : String) : Except PyErr α :=
  match d.get? k with
  | some v => .ok v
  | none => .error (.keyError k)

/-- The keys of the dictionary, in insertion order. -/
def keys {α : Type} (d : Dict α) : List String :=
  (d : List (String × α)).map Prod.fst

/-- `{**d, **d2}`: fold the entries of `d2` into `d` from the left. -/
def merge {α : Type} (d d2 : Dict α) : Dict α :=
  (d2 : List (String × α)).foldl (fun acc p => acc.insert p.1 p.2) d

end Dict

/-! ## Python string helpers used by the source -/

/-- Python `str.strip()` restricted to ASCII whitespace. -/
def pyStrip (s : String) : String :=
  ⟨(s.data.dropWhile Char.isWhitespace).reverse.dropWhile Char.isWhitespace
    |>.reverse⟩

/-- Python `str.zfill(width)`: left-pad with `'0'`, keeping a leading sign
in front of the padding. -/
def pyZfill (width : Nat) (s : String) : String :=
  match s.data with
  | c :: rest =>
      if c = '+' ∨ c = '-' then
        ⟨c :: (List.replicate (width - 1 - rest.length) '0' ++ rest)⟩
      else
        ⟨List.replicate (width - s.data.length) '0' ++ s.data⟩
  | [] => ⟨List.replicate width '0'⟩

/-- The maximal whitespace-free tokens of a character list, in order
(`acc` holds the reversed current token). -/
def wordsAux : List Char → List Char → List (List Char)
  | [], acc => if acc = [] then [] else [acc.reverse]
  | c :: rest, acc =>
      if c.isWhitespace then
        if acc = [] then wordsAux rest []
        else acc.reverse :: wordsAux rest []
      else wordsAux rest (c :: acc)

/-- Python `re.split(r'\s+', s.strip())`: the whitespace-separated tokens of
the stripped string, except that an all-whitespace string yields the single
token `""` (as `re.split` does on an empty input string). -/
def splitWs (s : String) : List String :=
  let t := pyStrip s
  if t = "" then [""]
  else (wordsAux t.data []).map (fun cs => (⟨cs⟩ : String))

/-- Parse an optionally signed decimal integer literal, as Python `int`.
Returns `none` (modelling `ValueError`) on anything else. -/
def parseInt (s : String) : Option ℤ :=
  let core (ds : List Char) : Option ℕ :=
    if ds = [] ∨ ¬ ds.all Char.isDigit then none
    else some (ds.foldl (fun acc c => acc * 10 + (c.toNat - 48)) 0)
  match s.data with
  | '-' :: rest => (core rest).map (fun n => -(n : ℤ))
  | '+' :: rest => (core rest).map (fun n => (n : ℤ))
  | ds => (core ds).map (fun n => (n : ℤ))

/-- Parse a decimal literal with an optional fractional part, as Python
`float` on the plain decimal notation used by the data formats (scientific
notation and specials such as `inf` do not occur there and are rejected). -/
def parseFloat (s : String) : Option ℚ :=
  let digits (ds : List Char) : ℕ :=
    ds.foldl (fun acc c => acc * 10 + (c.toNat - 48)) 0
  let core (ds : List Char) : Option ℚ :=
    match ds.splitOn '.' with
    | [ip] => if ip ≠ [] ∧ ip.all Char.isDigit then some (digits ip) else none
    | [ip, fp] =>
        if (ip ≠ [] ∨ fp ≠ []) ∧ ip.all Char.isDigit ∧ fp.all Char.isDigit
        then some ((digits ip : ℚ) + (digits fp : ℚ) / (10 : ℚ) ^ fp.length)
        else none
    | _ => none
  match s.data with
  | '-' :: rest => (core rest).map (fun q => -q)
  | '+' :: rest => core rest
  | ds => core ds

/-! ## `stations.py`: the station-identifier cross reference -/

/-- Python `str.splitlines()` for the line terminators that occur in the
reference list (`\n`, `\r`, `\r\n`); a trailing terminator does not open an
extra empty line. -/
def pySplitLinesGo : List Char → List Char → List (List Char)
  | [], acc => if acc = [] then [] else [acc.reverse]
  | '\r' :: '\n' :: rest, acc => acc.reverse :: pySplitLinesGo rest []
  | '\n' :: rest, acc => acc.reverse :: pySplitLinesGo rest []
  | '\r' :: rest, acc => acc.reverse :: pySplitLinesGo rest []
  | c :: rest, acc => pySplitLinesGo rest (c :: acc)

/-- Python `html.splitlines()`. -/
def pySplitLines (s : List Char) : List (List Char) := pySplitLinesGo s []

/-- Python `line.startswith('<tr>')`. -/
def startsTr : List Char → Bool
  | '<' :: 't' :: 'r' :: '>' :: _ => true
  | _ => false

/-- Python `line.count('<td')` (the pattern cannot overlap itself). -/
def countTd : List Char → ℕ
  | '<' :: 't' :: 'd' :: rest => countTd rest + 1
  | _ :: rest => countTd rest
  | [] => 0

/-- The remainder after the first `'>'`, if any: the `[^>]*?>` part of the
cell regex consumes exactly through the first `'>'`. -/
def splitAtGt : List Char → Option (List Char)
  | [] => none
  | '>' :: rest => some rest
  | _ :: rest => splitAtGt rest

/-- Split at the first occurrence of the literal `</td>`: the lazy group
`(.*?)` captures everything before it.  Returns the capture and the
remainder after the closing tag. -/
def splitClose : List Char → Option (List Char × List Char)
  | '<' :: '/' :: 't' :: 'd' :: '>' :: rest => some ([], rest)
  | c :: rest => (splitClose rest).map (fun p => (c :: p.1, p.2))
  | [] => none

/-- Attempt the tail of the pattern `<td[^>]*?>(.*?)</td>` right after a
matched `<td`: the capture and the remainder after the whole match. -/
def matchTd (l : List Char) : Option (List Char × List Char) :=
  match splitAtGt l with
  | none => none
  | some after => splitClose after

/-- Python `re.findall(r'<td[^>]*?>(.*?)</td>', line)`, fuelled so that the
recursion is structural; every step consumes at least one character, so a
fuel of `line.length + 1` never runs out. -/
def findallTdF : ℕ → List Char → List (List Char)
  | 0, _ => []
  | _ + 1, [] => []
  | f + 1, '<' :: 't' :: 'd' :: rest =>
      match matchTd rest with
      | some (cap, rest') => cap :: findallTdF f rest'
      | none => findallTdF f ('t' :: 'd' :: rest)
  | f + 1, _ :: rest => findallTdF f rest

/-- Python `re.findall(r'<td[^>]*?>(.*?)</td>', line)`. -/
def findallTd (l : List Char) : List (List Char) := findallTdF (l.length + 1) l

/-- Python `values[i]`: `IndexError` when out of range. -/
def getIdx {α : Type} (l : List α) (i : ℕ) : Except PyErr α :=
  match l[i]? with
  | some x => .ok x
  | none => .error .indexError

/-- `StationIDConverter.STATION_TYPES`. -/
def STATION_TYPES : List String := ["SY", "MN"]

/-- The `(dwd_id, wmo_id)` pairs that the loop of
`StationIDConverter.parse_station_list` extracts, line by line: one pair per
`<tr>` line with exactly 11 `<td` cells whose third cell is an accepted
station type.  `dwd_id` is already zero-filled to five characters. -/
def extractLoop : List (List Char) → Except PyErr (List (String × String))
  | [] => .ok []
  | line :: rest =>
      if ¬ startsTr line ∨ countTd line ≠ 11 then extractLoop rest
      else do
        let values := (findallTd line).map (fun cs => (⟨cs⟩ : String))
        let v2 ← getIdx values 2
        if v2 ∈ STATION_TYPES then do
          let v1 ← getIdx values 1
          let v3 ← getIdx values 3
          (extractLoop rest).map (fun es => (pyZfill 5 v1, v3) :: es)
        else extractLoop rest

/-- The valid entries of a reference list, in list order. -/
def extractEntries (html : List Char) : Except PyErr (List (String × String)) :=
  extractLoop (pySplitLines html)

/-- One step of map construction: `dwd_to_wmo[dwd_id] = wmo_id` and
`wmo_to_dwd[wmo_id] = dwd_id`. -/
def insertEntry (m : Dict String × Dict String) (e : String × String) :
    Dict String × Dict String :=
  (m.1.insert e.1 e.2, m.2.insert e.2 e.1)

/-- The loop of `StationIDConverter.parse_station_list`: scan the lines,
inserting each valid entry into both local maps ("last wins" on duplicate
keys). -/
def stationListLoop (m : Dict String × Dict String) :
    List (List Char) → Except PyErr (Dict String × Dict String)
  | [] => .ok m
  | line :: rest =>
      if ¬ startsTr line ∨ countTd line ≠ 11 then stationListLoop m rest
      else do
        let values := (findallTd line).map (fun cs => (⟨cs⟩ : String))
        let v2 ← getIdx values 2
        if v2 ∈ STATION_TYPES then do
          let v1 ← getIdx values 1
          let v3 ← getIdx values 3
          stationListLoop (insertEntry m (pyZfill 5 v1, v3)) rest
        else stationListLoop m rest

/-- The two maps held by `StationIDConverter` (`dwd_to_wmo`, `wmo_to_dwd`). -/
structure StationIDConverter where
  dwd_to_wmo : Dict String
  wmo_to_dwd : Dict String
  deriving DecidableEq, Repr

/-- `StationIDConverter.parse_station_list`: build both maps into local
variables, assert that at least one station was found, and only then replace
the converter's state.  An error leaves the previous state untouched,
because the two assignments come after the assert. -/
def parse_station_list (c : StationIDConverter) (html : List Char) :
    Except PyErr StationIDConverter := do
  let _ := c
  let maps ← stationListLoop (Dict.empty, Dict.empty) (pySplitLines html)
  if maps.1 = [] then throw .assertError
  else pure ⟨maps.1, maps.2⟩

/-- The converter state after a `load` call: replaced on success, untouched
when `parse_station_list` raised. -/
def stateAfterLoad (c : StationIDConverter) (html : List Char) :
    StationIDConverter :=
  match parse_station_list c html with
  | .ok c' => c'
  | .error _ => c

/-- `StationIDConverter.convert_to_wmo`. -/
def convert_to_wmo (c : StationIDConverter) (dwd_id : String) : Option String :=
  c.dwd_to_wmo.get? dwd_id

/-- `StationIDConverter.convert_to_dwd`. -/
def convert_to_dwd (c : StationIDConverter) (wmo_id : String) : Option String :=
  c.wmo_to_dwd.get? wmo_id

/-! ## `RADOLANParser`: the fixed-width binary radar composite decoder -/

/-- `RADOLANParser.HEIGHT`. -/
def RADOLAN_HEIGHT : ℕ := 1200

/-- `RADOLANParser.WIDTH`. -/
def RADOLAN_WIDTH : ℕ := 1100

/-- The scale factor `float('1' + 'E-02')` for the asserted precision
marker, as an exact rational. -/
def RADOLAN_PRECISION : ℚ := 1 / 100

/-- The per-cell decoding of `RADOLANParser.process_raw_data`: raw unsigned
16-bit values at or above the no-data sentinel 4096 become `None`, all
others are scaled by the precision factor. -/
def radolan_cell (x : ℕ) : Option ℚ :=
  if x < 4096 then some ((x : ℚ) * RADOLAN_PRECISION) else none

/-- `RADOLANParser.process_raw_data`: cut the flat array into `HEIGHT` rows
of `WIDTH` cells, in reversed row order, decoding each cell. -/
def process_raw_data (raw : List ℕ) : List (List (Option ℚ)) :=
  ((List.range RADOLAN_HEIGHT).reverse).map
    (fun row =>
      ((raw.drop (row * RADOLAN_WIDTH)).take RADOLAN_WIDTH).map radolan_cell)

/-- `RADOLANParser.parse_data` on the already word-assembled buffer: the
source asserts that the payload holds `2 * HEIGHT * WIDTH` bytes, i.e. that
the unsigned 16-bit array has `HEIGHT * WIDTH` entries, then decodes it. -/
def radolan_parse_data (raw : List ℕ) : Except PyErr (List (List (Option ℚ))) :=
  if 2 * raw.length = 2 * (RADOLAN_HEIGHT * RADOLAN_WIDTH) then
    .ok (process_raw_data raw)
  else .error .assertError

/-! ## `MOSMIXParser`: the streaming forecast bulletin decoder -/

/-- `MOSMIXParser.ELEMENTS`, in source order. -/
def MOSMIX_ELEMENTS : Dict String :=
  [("DD", "wind_direction"),
   ("FF", "wind_speed"),
   ("FX1", "wind_gust_speed"),
   ("N", "cloud_cover"),
   ("PPPP", "pressure_msl"),
   ("R101", "precipitation_probability"),
   ("R602", "precipitation_probability_6h"),
   ("Rad1h", "solar"),
   ("RR1c", "precipitation"),
   ("SunD1", "sunshine"),
   ("Td", "dew_point"),
   ("TTT", "temperature"),
   ("VV", "visibility"),
   ("ww", "condition")]

/-- Python `str.split(sep)` for a single-character separator. -/
def splitOnChar (sep : Char) : List Char → List (List Char)
  | [] => [[]]
  | c :: rest =>
      if c = sep then [] :: splitOnChar sep rest
      else
        match splitOnChar sep rest with
        | h :: t => (c :: h) :: t
        | [] => [[c]]

/-- Modelled from the spec: the unit-conversion library (`dwdparse.units`)
belongs to the repository but its source is not under `src/`; the spec (§2)
describes it as pure functions turning raw units and weather codes into SI
values and categorical conditions.  The exact weather-code→condition
catalogs are not spelled out, so they stay abstract parameters here; every
theorem below holds for any choice of them. -/
structure UnitsModel where
  synop_current_weather_code_to_condition : PyVal → PyVal
  synop_past_weather_code_to_condition : PyVal → PyVal
  synop_form_of_precipitation_code_to_condition : PyVal → PyVal

/-- Modelled from the spec: `kj_per_m2_to_j_per_m2`, the SI scaling
kJ/m² → J/m² (`dwdparse.units` is not under `src/`). -/
def kj_per_m2_to_j_per_m2 (q : ℚ) : ℚ := q * 1000

/-- The per-column converter `getattr(self, f'parse_{column}', float)` of
`MOSMIXParser.parse_station`: `parse_condition` for the condition column,
`parse_solar` for the solar column, plain `float` otherwise.  A failed
conversion raises (`ValueError`), exactly like the uncaught Python calls. -/
def mosmix_converter (units : UnitsModel) (column : String) (x : String) :
    Except PyErr PyVal :=
  if column = "condition" then
    match parseInt ⟨((splitOnChar '.' x.data).headD [])⟩ with
    | none => .error .valueError
    | some code =>
        .ok (units.synop_current_weather_code_to_condition (.num (code : ℚ)))
  else if column = "solar" then
    match parseFloat x with
    | none => .error .valueError
    | some q => .ok (.num (kj_per_m2_to_j_per_m2 q))
  else
    match parseFloat x with
    | none => .error .valueError
    | some q => .ok (.num q)

/-- The cell list built for one element: a literal `-` token maps to `None`,
every other token goes through the column's converter. -/
def mosmix_parse_cells (units : UnitsModel) (column : String) :
    List String → Except PyErr (List PyVal)
  | [] => .ok []
  | x :: rest => do
      let v ← if x = "-" then pure PyVal.null else mosmix_converter units column x
      let vs ← mosmix_parse_cells units column rest
      pure (v :: vs)

/-- The `for forecast in data.findall('dwd:Forecast', ns)` loop of
`MOSMIXParser.parse_station`: unknown element names are skipped, known ones
are split on whitespace, converted, and asserted to carry exactly one value
per timestamp (`n` is `len(timestamps)`).  A missing `dwd:value` node or
text raises `AttributeError` uncaught. -/
def mosmix_fold (units : UnitsModel) (n : ℕ) (recs : Dict (List PyVal)) :
    List (String × Option String) → Except PyErr (Dict (List PyVal))
  | [] => .ok recs
  | (param, valText) :: rest =>
      match MOSMIX_ELEMENTS.get? param with
      | none => mosmix_fold units n recs rest
      | some column => do
          let vs ← match valText with
            | some s => pure s
            | none => .error .attrError
          let cells ← mosmix_parse_cells units column (splitWs vs)
          if cells.length = n then
            mosmix_fold units n (recs.insert column cells) rest
          else .error .assertError

/-- The length of the shortest of the lists (`0` when there is none):
Python `zip(*lists)` truncates to it. -/
def minLen {α : Type} : List (List α) → ℕ
  | [] => 0
  | L :: rest => rest.foldl (fun m x => min m x.length) L.length

/-- Python `zip(*lists)`: the `i`-th output row collects the `i`-th entry of
every list, for `i` below the shortest length. -/
def zipMany {α : Type} (Ls : List (List α)) : List (List α) :=
  (List.range (minLen Ls)).map (fun i => Ls.filterMap (fun L => L[i]?))

/-- One station descriptor of the bulletin, as `MOSMIXParser.parse_station`
reads it: the `kml:name` text (WMO id), the `kml:description` text (station
name), the optional `kml:coordinates` text (`none` models the
`AttributeError` of a station without coordinates), and the
`dwd:Forecast` children as (element name, optional `dwd:value` text). -/
structure Placemark where
  wmo_station_id : String
  station_name : String
  coords : Option String
  forecasts : List (String × Option String)

/-- `MOSMIXParser.parse_station`: resolve the DWD id, give up on a station
without coordinates (yielding no records), unpack the three coordinates,
collect the element arrays (asserting their lengths), and transpose the
dict of equally long columns into one record per timestamp, merged over the
static station fields. -/
def parse_station (units : UnitsModel) (sic : StationIDConverter)
    (place : Placemark) (timestamps : List ℤ) (source : String) :
    Except PyErr (List (Dict PyVal)) := do
  let dwd_station_id := match convert_to_dwd sic place.wmo_station_id with
    | some s => PyVal.str s
    | none => PyVal.null
  match place.coords with
  | none => .ok []
  | some coordsText => do
      let (lonS, latS, heightS) ←
        match splitOnChar ',' coordsText.data with
        | [a, b, c] => pure ((⟨a⟩ : String), (⟨b⟩ : String), (⟨c⟩ : String))
        | _ => .error .valueError
      let records0 : Dict (List PyVal) := [("timestamp", timestamps.map PyVal.time)]
      let records ← mosmix_fold units timestamps.length records0 place.forecasts
      let lat ← match parseFloat latS with
        | some q => pure q
        | none => .error .valueError
      let lon ← match parseFloat lonS with
        | some q => pure q
        | none => .error .valueError
      let height ← match parseFloat heightS with
        | some q => pure q
        | none => .error .valueError
      let base : Dict PyVal :=
        [("observation_type", .str "forecast"),
         ("source", .str source),
         ("lat", .num lat),
         ("lon", .num lon),
         ("height", .num height),
         ("dwd_station_id", dwd_station_id),
         ("wmo_station_id", .str place.wmo_station_id),
         ("station_name", .str place.station_name)]
      .ok ((zipMany (records.map Prod.snd)).map
        (fun row => base.merge (records.keys.zip row)))

/-- The first block of `MOSMIXParser.sanitize_records`: a truthy negative
precipitation value becomes `None`.  Reading a missing key raises
`KeyError`, ordering a non-number against a number raises `TypeError`. -/
def mosmix_fix_precipitation (r0 : Dict PyVal) : Except PyErr (Dict PyVal) := do
  let p ← r0.getE "precipitation"
  if p.truthy then do
    let b ← p.ltNum 0
    pure (if b then r0.insert "precipitation" .null else r0)
  else pure r0

/-- The second block of `MOSMIXParser.sanitize_records`: a truthy wind
direction above 360 is reduced by 360 (`r['wind_direction'] -= 360`). -/
def mosmix_fix_wind_direction (r0 : Dict PyVal) : Except PyErr (Dict PyVal) := do
  let wd ← r0.getE "wind_direction"
  if wd.truthy then do
    let b ← wd.gtNum 360
    if b then
      match wd with
      | .num q => pure (r0.insert "wind_direction" (.num (q - 360)))
      | _ => .error .typeError
    else pure r0
  else pure r0

/-- The last two blocks of `MOSMIXParser.sanitize_records`: a truthy
negative cloud cover becomes 0, then a truthy cloud cover above 100 becomes
100 (the second block re-reads the possibly fixed value). -/
def mosmix_fix_cloud_cover (r0 : Dict PyVal) : Except PyErr (Dict PyVal) := do
  let cc ← r0.getE "cloud_cover"
  let r1 ← if cc.truthy then do
      let b ← cc.ltNum 0
      pure (if b then r0.insert "cloud_cover" (.num 0) else r0)
    else pure r0
  let cc2 ← r1.getE "cloud_cover"
  if cc2.truthy then do
    let b ← cc2.gtNum 100
    pure (if b then r1.insert "cloud_cover" (.num 100) else r1)
  else pure r1

/-- `MOSMIXParser.sanitize_records` on one record: its three sequential
fix-up blocks. -/
def mosmix_sanitize_record (r0 : Dict PyVal) : Except PyErr (Dict PyVal) := do
  let r1 ← mosmix_fix_precipitation r0
  let r2 ← mosmix_fix_wind_direction r1
  mosmix_fix_cloud_cover r2

/-- `MOSMIXParser.sanitize_records` over the station's record stream. -/
def mosmix_sanitize_records :
    List (Dict PyVal) → Except PyErr (List (Dict PyVal))
  | [] => .ok []
  | r :: rest => do
      let r' ← mosmix_sanitize_record r
      let rest' ← mosmix_sanitize_records rest
      pure (r' :: rest')

/-! ## `SYNOPParser`: the nested synoptic message decoder -/

/-- `SYNOPParser.mandatory_fields`. -/
def SYNOP_mandatory_fields : List String :=
  ["wmo_station_id", "station_name", "lat", "lon", "height", "timestamp"]

/-- `SYNOPParser.elements`. -/
def SYNOP_elements : Dict String :=
  [("cloudCoverTotal", "cloud_cover"),
   ("heightOfStationGroundAboveMeanSeaLevel", "height"),
   ("latitude", "lat"),
   ("longitude", "lon"),
   ("meteorologicalOpticalRange", "visibility"),
   ("pressureReducedToMeanSeaLevel", "pressure_msl"),
   ("stationOrSiteName", "station_name")]

/-- `SYNOPParser.height_field`. -/
def SYNOP_height_field : String :=
  "heightOfSensorAboveLocalGroundOrDeckOfMarinePlatform"

/-- `SYNOPParser.height`: the canonical 2 m sensor height. -/
def SYNOP_height : ℚ := 2

/-- `SYNOPParser.height_elements`. -/
def SYNOP_height_elements : Dict String :=
  [("airTemperature", "temperature"),
   ("dewpointTemperature", "dew_point"),
   ("relativeHumidity", "relative_humidity")]

/-- `SYNOPParser.time_period_field`. -/
def SYNOP_time_period_field : String := "timePeriod"

/-- `SYNOPParser.time_periods`. -/
def SYNOP_time_periods : List ℚ := [-10, -30, -60]

/-- `SYNOPParser.time_period_elements`. -/
def SYNOP_time_period_elements : Dict String :=
  [("globalSolarRadiationIntegratedOverPeriodSpecified", "solar"),
   ("windDirection", "wind_direction"),
   ("windSpeed", "wind_speed"),
   ("maximumWindGustDirection", "wind_gust_direction"),
   ("maximumWindGustSpeed", "wind_gust_speed"),
   ("totalPrecipitationOrTotalWaterEquivalent", "precipitation"),
   ("totalSunshine", "sunshine")]

/-- A node of a synoptic message tree: a typed key/value leaf (a JSON
object with `key` and `value` members) or a nested block list. -/
inductive Node where
  | leaf (key : String) (value : PyVal)
  | sub (blocks : List Node)

/-- Python `f'{q}'` for the numbers appearing in messages: integers render
without a decimal point (the only case the data exercises; non-integral
rationals render in `p/q` form, unlike CPython's decimal form). -/
def pyFormatNum (q : ℚ) : String :=
  if q.den = 1 then toString q.num else toString q

/-- Python `f'{v}'` on an arbitrary message value. -/
def pyFStr : PyVal → String
  | .null => "None"
  | .num q => pyFormatNum q
  | .str s => s
  | .time t => toString t

/-- A value interpolated with the format spec `:03d`: only integers are
accepted (`ValueError`/`TypeError` otherwise), zero-padded to width 3. -/
def pyFormat03d : PyVal → Except PyErr String
  | .num q => if q.den = 1 then .ok (pyZfill 3 (toString q.num)) else .error .valueError
  | .null => .error .typeError
  | .str _ => .error .valueError
  | .time _ => .error .typeError

/-- Python `value * 60` for the sunshine scaling: numbers scale, a (truthy)
string would be repeated, anything else raises `TypeError`. -/
def pyMul60 : PyVal → Except PyErr PyVal
  | .num q => .ok (.num (q * 60))
  | .str s => .ok (.str (String.join (List.replicate 60 s)))
  | .null => .error .typeError
  | .time _ => .error .typeError

/-- An abstract injective encoding of `datetime.datetime(y, mo, d, h, mi,
tzinfo=utc)` as one integer instant (calendar range validation is not
modelled). -/
def mkInstant (y mo d h mi : ℤ) : ℤ :=
  (((y * 100 + mo) * 100 + d) * 100 + h) * 100 + mi

/-- A Python value used as an integer `datetime` component: anything but an
integral number raises `TypeError`. -/
def pyToInt : PyVal → Except PyErr ℤ
  | .num q => if q.den = 1 then .ok q.num else .error .typeError
  | _ => .error .typeError

/-- `SYNOPParser.parse_minute`: check every date component for `None`
(skipping the record), then assemble the UTC timestamp. -/
def parse_minute (record data : Dict PyVal) : Except PyErr (Dict PyVal) := do
  let y ← data.getE "year"
  if y = .null then throw .skipRecord else do
  let mo ← data.getE "month"
  if mo = .null then throw .skipRecord else do
  let d ← data.getE "day"
  if d = .null then throw .skipRecord else do
  let h ← data.getE "hour"
  if h = .null then throw .skipRecord else do
  let mi ← data.getE "minute"
  if mi = .null then throw .skipRecord else do
  let yi ← pyToInt y
  let moi ← pyToInt mo
  let di ← pyToInt d
  let hi ← pyToInt h
  let mii ← pyToInt mi
  pure (record.insert "timestamp" (.time (mkInstant yi moi di hi mii)))

/-- `wmo_id_to_dwd` as called with an arbitrary message value: a dictionary
`get` misses on any non-string key and yields `None`. -/
def synopLookupDwd (sic : StationIDConverter) : PyVal → PyVal
  | .str s =>
      match convert_to_dwd sic s with
      | some d => .str d
      | none => .null
  | _ => .null

/-- `SYNOPParser.parse_stationNumber`: prefer the composite block+station
number (`f'{blockNumber}{stationNumber:03d}'`) over the short station name
fallback, then resolve the DWD id through the global converter. -/
def parse_stationNumber (sic : StationIDConverter) (record data : Dict PyVal) :
    Except PyErr (Dict PyVal) := do
  let sn ← data.getE "stationNumber"
  let wmoVal ← if sn.truthy then do
      let bn ← data.getE "blockNumber"
      let pad ← pyFormat03d sn
      pure (PyVal.str (pyFStr bn ++ pad))
    else do
      let short ← data.getE "shortStationName"
      pure short
  pure ((record.insert "wmo_station_id" wmoVal).insert
    "dwd_station_id" (synopLookupDwd sic wmoVal))

/-- `SYNOPParser.parse_presentWeather`: skipped under a (never set)
`timePeriod` record field; a non-null condition always overrides. -/
def parse_presentWeather (units : UnitsModel) (record : Dict PyVal)
    (value : PyVal) : Dict PyVal :=
  if ((record.get? "timePeriod").getD .null).truthy then record
  else
    let condition := units.synop_current_weather_code_to_condition value
    if condition.truthy then record.insert "condition" condition else record

/-- `SYNOPParser.parse_pastWeather1`: a past-weather condition only fills in
when no condition is set yet. -/
def parse_pastWeather1 (units : UnitsModel) (record : Dict PyVal)
    (value : PyVal) : Dict PyVal :=
  if value.truthy ∧ ¬ ((record.get? "condition").getD .null).truthy then
    record.insert "condition" (units.synop_past_weather_code_to_condition value)
  else record

/-- The body of the `for block in message` loop of `SYNOPParser.parse_tree`
for one leaf, after `data[key] = value`: the `if/elif` dispatch chain. -/
def synop_leaf (units : UnitsModel) (sic : StationIDConverter)
    (record data : Dict PyVal) (key : String) (value : PyVal) :
    Except PyErr (Dict PyVal) :=
  match SYNOP_elements.get? key with
  | some field => .ok (record.insert field value)
  | none =>
    match SYNOP_height_elements.get? key with
    | some field => do
        let hv ← data.getE SYNOP_height_field
        pure (if hv.pyEq (.num SYNOP_height) then record.insert field value
              else record)
    | none =>
      match SYNOP_time_period_elements.get? key with
      | some field =>
          match (data.get? SYNOP_time_period_field).getD (.num (-10)) with
          | .num q =>
              if q = -10 ∨ q = -30 ∨ q = -60 then do
                let value ← if field = "sunshine" ∧ value.truthy
                  then pyMul60 value else pure value
                pure (record.insert (field ++ "_" ++ pyFormatNum (-q)) value)
              else .ok record
          | _ => .ok record
      | none =>
        match key with
        | "minute" => parse_minute record data
        | "stationNumber" => parse_stationNumber sic record data
        | "presentWeather" => .ok (parse_presentWeather units record value)
        | "pastWeather1" => .ok (parse_pastWeather1 units record value)
        | _ => .ok record

mutual

/-- `SYNOPParser.parse_tree` as a walk over one block list: the context
`data` accumulates left to right; a nested block list walks with a copy of
the current context (its own `data` mutations stay local) while `record`
mutations persist.  Returns the record and the context after the list. -/
def synop_walk (units : UnitsModel) (sic : StationIDConverter)
    (record data : Dict PyVal) :
    List Node → Except PyErr (Dict PyVal × Dict PyVal)
  | [] => .ok (record, data)
  | b :: rest => do
      let (record, data) ← synop_block units sic record data b
      synop_walk units sic record data rest

/-- One `block` iteration of `SYNOPParser.parse_tree`. -/
def synop_block (units : UnitsModel) (sic : StationIDConverter)
    (record data : Dict PyVal) :
    Node → Except PyErr (Dict PyVal × Dict PyVal)
  | .leaf key value => do
      let data := data.insert key value
      let record ← synop_leaf units sic record data key value
      pure (record, data)
  | .sub blocks => do
      let rd ← synop_walk units sic record data blocks
      pure (rd.1, data)

end

/-- `SYNOPParser.parse_message`: walk the tree from an empty context, then
drop (via `SkipRecord`) any record missing a mandatory field. -/
def parse_message (units : UnitsModel) (sic : StationIDConverter)
    (message : List Node) : Except PyErr (Dict PyVal) := do
  let record : Dict PyVal := [("observation_type", .str "synop")]
  let rd ← synop_walk units sic record Dict.empty message
  let record := rd.1
  let is_complete := SYNOP_mandatory_fields.all
    (fun f => match record.get? f with
      | some v => v ≠ .null
      | none => false)
  if ¬ is_complete then throw .skipRecord else pure record

/-- Python `pattern.isPrefixOf text` on raw characters (used for
`field.startswith('precipitation_')`). -/
def startsWithChars : List Char → List Char → Bool
  | [], _ => true
  | _ :: _, [] => false
  | p :: ps, c :: cs => p = c && startsWithChars ps cs

/-- The `for field in list(record)` loop of `SYNOPParser.sanitize_record`:
null out negative window-suffixed precipitation values. -/
def synop_sanitize_loop (r : Dict PyVal) :
    List String → Except PyErr (Dict PyVal)
  | [] => .ok r
  | f :: fs =>
      if startsWithChars "precipitation_".data f.data then do
        let v := (r.get? f).getD .null
        let b ← (if v.truthy then v else .num 0).ltNum 0
        synop_sanitize_loop (if b then r.insert f .null else r) fs
      else synop_sanitize_loop r fs

/-- `SYNOPParser.sanitize_record`: negative precipitation values become
`None`; a cloud cover above 100 becomes `None`. -/
def synop_sanitize_record (r : Dict PyVal) : Except PyErr (Dict PyVal) := do
  let r ← synop_sanitize_loop r (r.keys)
  let cv := (r.get? "cloud_cover").getD .null
  let b ← (if cv.truthy then cv else .num 0).gtNum 100
  pure (if b then r.insert "cloud_cover" .null else r)

/-- The message loop of `SYNOPParser.parse`: parse and sanitize each
message, suppressing only `SkipRecord`; every other exception escapes the
generator and aborts the whole decode. -/
def synop_parse (units : UnitsModel) (sic : StationIDConverter) :
    List (List Node) → Except PyErr (List (Dict PyVal))
  | [] => .ok []
  | msg :: rest =>
      match (do
          let r ← parse_message units sic msg
          synop_sanitize_record r : Except PyErr (Dict PyVal)) with
      | .ok r => (synop_parse units sic rest).map (fun rs => r :: rs)
      | .error .skipRecord => synop_parse units sic rest
      | .error e => .error e

/-- The walk over a block list reaches, somewhere — possibly nested — a
height-qualified element leaf at a point where no sensor-height key has
yet been seen on the current context path (`data` holds everything seen so
far on that path): either the next block is such a leaf, or the next block
is processed successfully and the rest of the list reaches one, or the
next block is a nested list whose walk (sharing the current context)
reaches one. -/
inductive ReachesOrphan (units : UnitsModel) (sic : StationIDConverter) :
    Dict PyVal → Dict PyVal → List Node → Prop
  | here (record data : Dict PyVal) (k : String) (v : PyVal)
      (rest : List Node) :
      (SYNOP_height_elements.get? k).isSome →
      data.get? SYNOP_height_field = none →
      ReachesOrphan units sic record data (.leaf k v :: rest)
  | step (record data : Dict PyVal) (b : Node) (rest : List Node)
      (record' data' : Dict PyVal) :
      synop_block units sic record data b = .ok (record', data') →
      ReachesOrphan units sic record' data' rest →
      ReachesOrphan units sic record data (b :: rest)
  | nest (record data : Dict PyVal) (blocks rest : List Node) :
      ReachesOrphan units sic record data blocks →
      ReachesOrphan units sic record data (.sub blocks :: rest)

/-! ## `CurrentObservationsParser.sanitize_record` -/

/-- One `if record[k] and record[k] > t: record[k] = None` block of
`CurrentObservationsParser.sanitize_record` (all three blocks share this
shape). -/
def null_if_above (k : String) (t : ℚ) (r0 : Dict PyVal) :
    Except PyErr (Dict PyVal) := do
  let v ← r0.getE k
  if v.truthy then do
    let b ← v.gtNum t
    pure (if b then r0.insert k .null else r0)
  else pure r0

/-- `CurrentObservationsParser.sanitize_record`: null out unphysical cloud
cover, relative humidity and sunshine values. -/
def current_sanitize_record (r0 : Dict PyVal) : Except PyErr (Dict PyVal) := do
  let r1 ← null_if_above "cloud_cover" 100 r0
  let r2 ← null_if_above "relative_humidity" 100 r1
  null_if_above "sunshine" 3600 r2

/-! ## `ObservationsParser`: the historical decoders' shared skeleton -/

/-- One entry of the Station Metadata History: `(lat, lon, height, name)`. -/
abbrev StationInfo := ℚ × ℚ × ℚ × String

/-- The loop of `ObservationsParser._station_params`: remember the last
entry seen before the first whose effective-from date exceeds the
timestamp. -/
def station_params_loop (ts : ℤ) :
    List (ℤ × StationInfo) → Option StationInfo → Option StationInfo
  | [], info => info
  | (date, x) :: rest, info =>
      if date > ts then info else station_params_loop ts rest (some x)

/-- `ObservationsParser._station_params`. -/
def station_params (ts : ℤ) (hist : List (ℤ × StationInfo)) :
    Option StationInfo :=
  station_params_loop ts hist none

/-- The resolution rule as the specification words it (a second, spec-side
definition for comparison): the last Station Metadata History entry whose
effective-from timestamp is ≤ the observation timestamp, if any. -/
def spec_station_params (ts : ℤ) (hist : List (ℤ × StationInfo)) :
    Option StationInfo :=
  ((hist.filter (fun e => e.1 ≤ ts)).getLast?).map Prod.snd

/-- `ObservationsParser.parse_reader`, generic over the element parsing of
the concrete subclass (`parseElems` embeds `self.parse_elements(row, lat,
lon, height)`) and the row-skip predicate (`False` in the base class).
Rows carry their already-converted `MESS_DATUM` timestamp.  Unpacking the
station parameters of a timestamp not covered by the history raises
(`TypeError`: `NoneType` is not iterable). -/
def obs_parse_reader {α : Type} (skip : ℤ → Bool)
    (parseElems : α → ℚ → ℚ → ℚ → Except PyErr (Dict PyVal))
    (filename : String) (hist : List (ℤ × StationInfo)) :
    List (ℤ × α) → Except PyErr (List (Dict PyVal))
  | [] => .ok []
  | (ts, row) :: rest =>
      if skip ts then obs_parse_reader skip parseElems filename hist rest
      else do
        let info ← match station_params ts hist with
          | some i => pure i
          | none => .error .typeError
        let elems ← parseElems row info.1 info.2.1 info.2.2.1
        let rec0 : Dict PyVal :=
          [("source", .str ("Observations:Recent:" ++ filename)),
           ("lat", .num info.1),
           ("lon", .num info.2.1),
           ("height", .num info.2.2.1),
           ("station_name", .str info.2.2.2),
           ("timestamp", .time ts)]
        let r := rec0.merge elems
        (obs_parse_reader skip parseElems filename hist rest).map
          (fun rs => r :: rs)

/-! ## `PressureObservationsParser.parse_elements` -/

/-- The barometric approximation of
`PressureObservationsParser.parse_elements`, applied to the element values
already produced by the base class (`pressure_msl` and `pressure_station`
in Pa, both optional): when the reported sea-level pressure is falsy
(absent or zero) and the station-level pressure is truthy, approximate
`pressure_msl` with the barometric formula rounded to the nearest 10 Pa
(`int(round(..., -1))`, modelled as round-half-up at the tens); otherwise
the reported value passes through unchanged.  `pressure_station` is deleted
from the result, so only the `pressure_msl` component is returned. -/
noncomputable def pressure_parse_elements
    (pressure_msl pressure_station : Option ℝ) (height : ℝ) : Option ℝ :=
  open Classical in
  if (pressure_msl = none ∨ pressure_msl = some 0) ∧
      pressure_station ≠ none ∧ pressure_station ≠ some 0 then
    match pressure_station with
    | some p0 =>
        some (((round (p0 * (1 - 0.0065 * height / 288.15) ^ (-5.255 : ℝ) / 10)
          * 10 : ℤ) : ℝ))
    | none => none
  else pressure_msl

/-! ## `PrecipitationObservationsParser`: the condition-code fill -/

/-- The two CSV columns that `PrecipitationObservationsParser.fill_wrtr`
reads and writes: the condition code `WRTR` and the precipitation indicator
`RS_IND`, both raw strings. -/
structure PrecipRow where
  wrtr : String
  rsind : String
  deriving DecidableEq, Repr

/-- A neighbor row qualifies as a fill source when it exists and its
indicator strips to `'1'`. -/
def qualifies : Option PrecipRow → Bool
  | some r => pyStrip r.rsind = "1"
  | none => false

/-- The condition code of a (qualifying, hence present) neighbor row. -/
def codeOf (o : Option PrecipRow) : String :=
  (o.map PrecipRow.wrtr).getD "9"

/-- `PrecipitationObservationsParser.fill_wrtr`. -/
def fill_wrtr (last_row : Option PrecipRow) (row : PrecipRow)
    (next_row : Option PrecipRow) : PrecipRow :=
  if row.wrtr ≠ "-999" then row
  else if pyStrip row.rsind = "0" then { row with wrtr := "0" }
  else if qualifies last_row then { row with wrtr := codeOf last_row }
  else if qualifies next_row then { row with wrtr := codeOf next_row }
  else { row with wrtr := "9" }

/-- The zip body of `PrecipitationObservationsParser.with_neighbors`,
generalized over the head of the left-shifted column (`chain([None], a)`
starts it with `None`). -/
def wnAux {β : Type} (prev : Option β) (l : List β) :
    List (Option β × β × Option β) :=
  List.zipWith (fun a bc => (a, bc.1, bc.2))
    (prev :: l.map some)
    (l.zip (l.tail.map some ++ [none]))

/-- `PrecipitationObservationsParser.with_neighbors`:
`'ABCDEF' -> (None,'A','B'), ('A','B','C'), ..., ('E','F',None)`. -/
def with_neighbors {β : Type} (l : List β) : List (Option β × β × Option β) :=
  wnAux none l

/-- The loop underlying
`itertools.starmap(self.fill_wrtr, self.with_neighbors(reader))` under
CPython object semantics: the three `tee` iterators yield the *same* row
dicts, and `fill_wrtr` assigns `row['WRTR']` in place, so when a row is
processed its predecessor (the triple's `last_row`) already carries its
filled code, while its successor (the triple's `next_row`) is still raw.
The stream is therefore a left fold threading the filled predecessor. -/
def fillLoop : Option PrecipRow → List PrecipRow → List PrecipRow
  | _, [] => []
  | prev, row :: rest =>
      let filled := fill_wrtr prev row rest.head?
      filled :: fillLoop (some filled) rest

/-- `itertools.starmap(self.fill_wrtr, self.with_neighbors(reader))`: the
row stream as the wrapped reader hands it to the shared skeleton (the
first triple has no predecessor). -/
def fill_stream (rows : List PrecipRow) : List PrecipRow :=
  fillLoop none rows

/-- The fill rule exactly as the specification states it (a second,
spec-side definition for comparison): the nearest neighbor row with
indicator 1, checking behind before ahead, else the declared default code. -/
def spec_claimed_fill (last_row : Option PrecipRow)
    (next_row : Option PrecipRow) : String :=
  if qualifies last_row then codeOf last_row
  else if qualifies next_row then codeOf next_row
  else "9"

/-! ## Concrete inputs used by counterexamples and witnesses -/

/-- A reference-list line for station type `SY` with the given national and
international identifiers: a `<tr>` row with exactly 11 `<td` cells. -/
def mkStationLine (dwd wmo : String) : String :=
  "<tr><td>N</td><td>" ++ dwd ++ "</td><td>SY</td><td>" ++ wmo ++
    "</td><td></td><td></td><td></td><td></td><td></td><td></td><td></td>"

/-- A reference list in which two entries carry the same international
identifier `AAA`. -/
def dupWmoHtml : List Char :=
  (mkStationLine "1" "AAA" ++ "\n" ++ mkStationLine "2" "AAA").data

/-- A reference list with a single valid entry. -/
def oneEntryHtml : List Char := (mkStationLine "1" "AAA").data

/-- A trivial unit-conversion model for concrete witnesses: every
weather-code catalog maps to `None`. -/
def trivialUnits : UnitsModel :=
  ⟨fun _ => PyVal.null, fun _ => PyVal.null, fun _ => PyVal.null⟩

/-- A forecast record carrying a wind direction of 800°. -/
def windCounterRec : Dict PyVal :=
  [("precipitation", .null), ("wind_direction", .num 800),
   ("cloud_cover", .null)]

/-- A forecast record carrying a wind direction of 400°. -/
def windWitnessRec : Dict PyVal :=
  [("precipitation", .null), ("wind_direction", .num 400),
   ("cloud_cover", .null)]

/-- A synoptic record carrying a cloud cover of −5 %. -/
def synopCloudCounterRec : Dict PyVal := [("cloud_cover", .num (-5))]

/-- A forecast record carrying a cloud cover of 250 %. -/
def cloudWitnessRec : Dict PyVal :=
  [("precipitation", .null), ("wind_direction", .null),
   ("cloud_cover", .num 250)]

/-- A station descriptor whose one known element carries two values. -/
def mosmixMismatchPlace : Placemark :=
  ⟨"P100", "name", some "1,2,3", [("TTT", some "1 2")]⟩

/-- A well-formed station descriptor with one known two-step element. -/
def mosmixGoodPlace : Placemark :=
  ⟨"P100", "name", some "1,2,3", [("TTT", some "5 6")]⟩

end Dwdparse

namespace Dwdparse

/-! # Theorems

Helper lemmas first, then one top-level theorem per claim (with its
witness or counterexample). -/

theorem Dict.get?_insert_self {α : Type} (d : Dict α) (k : String) (v : α) :
    (d.insert k v).get? k = some v := by
  induction d with
  | nil => simp [Dict.insert, Dict.get?]
  | cons p rest ih =>
      by_cases h : p.1 = k <;> simp [Dict.insert, Dict.get?, h, ih]

theorem Dict.get?_insert_ne {α : Type} (d : Dict α) (k k' : String) (v : α)
    (h : k ≠ k') : (d.insert k v).get? k' = d.get? k' := by
  induction d with
  | nil => simp [Dict.insert, Dict.get?, h]
  | cons p rest ih =>
      by_cases hp : p.1 = k
      · simp [Dict.insert, Dict.get?, hp, h, ih]
      · by_cases hp' : p.1 = k' <;>
          simp [Dict.insert, Dict.get?, hp, hp', ih, Ne.symm h]

/-- C2: a radar frame whose payload matches the declared 1200×1100 grid
decodes to exactly 1200 rows of 1100 cells; a cell with raw unsigned 16-bit
value ≥ 4096 is absent, any other equals `raw × 10⁻²`; and output row `i`
is on-disk row `1199 - i` (row order reversed, so row 0 is the southernmost
row). -/
theorem radolan_grid_spec (raw : List ℕ)
    (h : raw.length = RADOLAN_HEIGHT * RADOLAN_WIDTH) :
    radolan_parse_data raw = .ok (process_raw_data raw) ∧
    (process_raw_data raw).length = RADOLAN_HEIGHT ∧
    (∀ row ∈ process_raw_data raw, row.length = RADOLAN_WIDTH) ∧
    (∀ i j, i < RADOLAN_HEIGHT → j < RADOLAN_WIDTH →
      ((process_raw_data raw)[i]?.bind (fun r => r[j]?)) =
        (raw[(RADOLAN_HEIGHT - 1 - i) * RADOLAN_WIDTH + j]?).map radolan_cell) := by
  refine ⟨by simp [radolan_parse_data, h], by simp [process_raw_data], ?_, ?_⟩
  · intro row hrow
    simp only [process_raw_data, List.mem_map, List.mem_reverse,
      List.mem_range] at hrow
    obtain ⟨r, hr, rfl⟩ := hrow
    simp only [List.length_map, List.length_take, List.length_drop, h]
    simp only [RADOLAN_HEIGHT, RADOLAN_WIDTH] at hr ⊢
    omega
  · intro i j hi hj
    have hrev : ((List.range RADOLAN_HEIGHT).reverse)[i]? =
        some (RADOLAN_HEIGHT - 1 - i) := by
      rw [List.getElem?_reverse (by simpa using hi), List.length_range,
        List.getElem?_range (by omega)]
    simp only [process_raw_data, List.getElem?_map, hrev, Option.map_some',
      Option.some_bind]
    rw [List.getElem?_take_of_lt hj, List.getElem?_drop]

/-- Witness for C2 at the concrete all-zero payload of the declared size. -/
theorem radolan_grid_spec_witness :
    (List.replicate (1200 * 1100) (0 : ℕ)).length =
      RADOLAN_HEIGHT * RADOLAN_WIDTH ∧
    (process_raw_data (List.replicate (1200 * 1100) 0)).length =
      RADOLAN_HEIGHT ∧
    ((process_raw_data (List.replicate (1200 * 1100) 0))[0]?.bind
        (fun r => r[0]?)) =
      ((List.replicate (1200 * 1100) (0 : ℕ))[(RADOLAN_HEIGHT - 1 - 0) *
        RADOLAN_WIDTH + 0]?).map radolan_cell := by
  have hlen : (List.replicate (1200 * 1100) (0 : ℕ)).length =
      RADOLAN_HEIGHT * RADOLAN_WIDTH := by
    rw [List.length_replicate]; rfl
  have h := radolan_grid_spec (List.replicate (1200 * 1100) 0) hlen
  exact ⟨hlen, h.2.1, h.2.2.2 0 0 (by norm_num [RADOLAN_HEIGHT])
    (by norm_num [RADOLAN_WIDTH])⟩

theorem wnAux_cons {β : Type} (prev : Option β) (x : β) (l : List β) :
    wnAux prev (x :: l) = (prev, x, l.head?) :: wnAux (some x) l := by
  cases l <;> simp [wnAux]

theorem wnAux_append {β : Type} (pre : List β) (prev : Option β) (row : β)
    (post : List β) :
    (wnAux prev (pre ++ row :: post))[pre.length]? =
      some (pre.getLast?.or prev, row, post.head?) := by
  induction pre generalizing prev with
  | nil => simp [wnAux_cons]
  | cons p pre' ih =>
      rw [List.cons_append, wnAux_cons]
      simp only [List.length_cons, List.getElem?_cons_succ]
      rw [ih]
      cases pre' <;> simp [List.getLast?]

theorem fillLoop_getElem :
    ∀ (rows : List PrecipRow) (prev : Option PrecipRow) (i : ℕ),
      (fillLoop prev rows)[i]? = (rows[i]?).map (fun row =>
        fill_wrtr (if i = 0 then prev else (fillLoop prev rows)[i - 1]?)
          row rows[i + 1]?) := by
  intro rows
  induction rows with
  | nil => intro prev i; simp [fillLoop]
  | cons row rest ih =>
      intro prev i
      cases i with
      | zero => simp [fillLoop, List.head?_eq_getElem?]
      | succ j =>
          rw [fillLoop]
          simp only [List.getElem?_cons_succ]
          rw [ih]
          cases j with
          | zero => simp [fillLoop]
          | succ m => simp [fillLoop]

/-- C6 (amended): in the filled row stream, a row whose condition code is
the `-999` sentinel receives: `'0'` when its own indicator strips to `0`;
otherwise, when the preceding row's indicator strips to `1`, the preceding
row's *already filled* code (so a code propagates forward through a run of
missing rows, matching the in-place mutation through the shared `tee`
stream); otherwise, when the following row's indicator strips to `1`, the
following row's raw code; otherwise the default code `'9'`. -/
theorem fill_wrtr_stream_spec (rows : List PrecipRow) (i : ℕ)
    (row : PrecipRow) (hrow : rows[i]? = some row)
    (hmiss : row.wrtr = "-999") :
    (fill_stream rows)[i]? = some (
      if pyStrip row.rsind = "0" then { row with wrtr := "0" }
      else if qualifies (if i = 0 then none else (fill_stream rows)[i - 1]?)
      then { row with wrtr := codeOf (if i = 0 then none else (fill_stream rows)[i - 1]?) }
      else if qualifies rows[i + 1]? then
        { row with wrtr := codeOf rows[i + 1]? }
      else { row with wrtr := "9" }) := by
  simp only [fill_stream]
  rw [fillLoop_getElem, hrow, Option.map_some']
  simp [fill_wrtr, hmiss]

/-- Counterexample to C6 as stated: the second row of the first stream has
the missing sentinel and indicator `0` (≠ 1); its preceding neighbor
qualifies with code `'5'`, so the claimed nearest-neighbor rule fills
`'5'` — but the program fills the own-row dry marker `'0'`.  And in the
second stream the third row is filled with `'5'`, the *filled* code of its
predecessor, not that row's raw code `-999`. -/
theorem fill_wrtr_stream_counterexample :
    ((fill_stream [⟨"5", "1"⟩, ⟨"-999", "0"⟩]).map PrecipRow.wrtr) =
      ["5", "0"] ∧
    spec_claimed_fill (some ⟨"5", "1"⟩) none = "5" ∧
    ((fill_stream [⟨"5", "1"⟩, ⟨"-999", "1"⟩, ⟨"-999", "1"⟩]).map
      PrecipRow.wrtr) = ["5", "5", "5"] ∧
    ("0" : String) ≠ "5" ∧ ("5" : String) ≠ "-999" := by
  decide

/-- Witness for C6's amended theorem: in the chained-missing stream the
third row receives its predecessor's filled code `'5'`. -/
theorem fill_wrtr_stream_spec_witness :
    (fill_stream [⟨"5", "1"⟩, ⟨"-999", "1"⟩, ⟨"-999", "1"⟩])[2]? =
      some ⟨"5", "1"⟩ := by
  have h := fill_wrtr_stream_spec
    [⟨"5", "1"⟩, ⟨"-999", "1"⟩, ⟨"-999", "1"⟩] 2 ⟨"-999", "1"⟩
    (by decide) rfl
  rw [h]
  decide

theorem ebind_ok {ε α β : Type} (a : α) (f : α → Except ε β) :
    (Except.ok a >>= f) = f a := rfl

theorem ebind_error {ε α β : Type} (e : ε) (f : α → Except ε β) :
    ((Except.error e : Except ε α) >>= f) = Except.error e := rfl

theorem emap_ok {ε α β : Type} (a : α) (f : α → β) :
    Except.map f (Except.ok a : Except ε α) = Except.ok (f a) := rfl

theorem emap_error {ε α β : Type} (e : ε) (f : α → β) :
    Except.map f (Except.error e : Except ε α) = Except.error e := rfl

theorem epure_eq {ε α : Type} (a : α) :
    (pure a : Except ε α) = Except.ok a := rfl

/-- The single scan of `parse_station_list` builds the same maps as folding
the extracted entry list over the empty maps. -/
theorem stationListLoop_extract (lines : List (List Char)) :
    ∀ m, stationListLoop m lines =
      (extractLoop lines).map (fun es => es.foldl insertEntry m) := by
  induction lines with
  | nil => intro m; simp [stationListLoop, extractLoop, emap_ok]
  | cons line rest ih =>
      intro m
      by_cases hg : ¬ startsTr line ∨ countTd line ≠ 11
      · simp only [stationListLoop, extractLoop, if_pos hg]
        exact ih m
      · simp only [stationListLoop, extractLoop, if_neg hg]
        cases h2 : getIdx ((findallTd line).map (fun cs => (⟨cs⟩ : String))) 2 with
        | error e => simp [h2, ebind_error, emap_error]
        | ok v2 =>
            by_cases hmem : v2 ∈ STATION_TYPES
            · cases h1 : getIdx ((findallTd line).map (fun cs => (⟨cs⟩ : String))) 1 with
              | error e => simp [h2, h1, hmem, ebind_ok, ebind_error, emap_error]
              | ok v1 =>
                  cases h3 : getIdx ((findallTd line).map (fun cs => (⟨cs⟩ : String))) 3 with
                  | error e =>
                      simp [h2, h1, h3, hmem, ebind_ok, ebind_error, emap_error]
                  | ok v3 =>
                      simp only [h2, h1, h3, hmem, if_true, ebind_ok]
                      rw [ih]
                      cases hx : extractLoop rest <;>
                        simp [hx, emap_ok, emap_error]
            · simp only [h2, hmem, if_false, ebind_ok]
              exact ih m

theorem foldl_insertEntry_fst (es : List (String × String))
    (m : Dict String × Dict String) :
    (es.foldl insertEntry m).1 =
      es.foldl (fun d e => d.insert e.1 e.2) m.1 := by
  induction es generalizing m with
  | nil => rfl
  | cons e es ih => simp [insertEntry, ih]

theorem foldl_insertEntry_snd (es : List (String × String))
    (m : Dict String × Dict String) :
    (es.foldl insertEntry m).2 =
      es.foldl (fun d e => d.insert e.2 e.1) m.2 := by
  induction es generalizing m with
  | nil => rfl
  | cons e es ih => simp [insertEntry, ih]

theorem get?_foldl_insert_of_ne {f g : String × String → String}
    (es : List (String × String)) (m : Dict String) (k : String)
    (h : ∀ e ∈ es, f e ≠ k) :
    (es.foldl (fun d e => d.insert (f e) (g e)) m).get? k = m.get? k := by
  induction es generalizing m with
  | nil => rfl
  | cons e es ih =>
      rw [List.foldl_cons, ih _ (fun x hx => h x (List.mem_cons_of_mem _ hx)),
        Dict.get?_insert_ne _ _ _ _ (h e (List.mem_cons_self _ _))]

theorem get?_foldl_insert_last {f g : String × String → String}
    (e1 e2 : List (String × String)) (e : String × String) (m : Dict String)
    (h : ∀ x ∈ e2, f x ≠ f e) :
    ((e1 ++ e :: e2).foldl (fun d x => d.insert (f x) (g x)) m).get? (f e) =
      some (g e) := by
  rw [List.foldl_append, List.foldl_cons, get?_foldl_insert_of_ne _ _ _ h,
    Dict.get?_insert_self]

/-- C3 (amended): an entry `(d, w)` of a freshly loaded reference list
round-trips (national → international → national gives back `d`) provided
no later entry of the list reuses its national identifier `d` or its
international identifier `w` — construction is "last wins", so a later
duplicate would redirect one of the two lookups. -/
theorem stations_roundtrip_last (c0 : StationIDConverter) (html : List Char)
    (e1 e2 : List (String × String)) (d w : String)
    (hx : extractEntries html = .ok (e1 ++ (d, w) :: e2))
    (hd : ∀ x ∈ e2, x.1 ≠ d) (hw : ∀ x ∈ e2, x.2 ≠ w) :
    ∀ c, parse_station_list c0 html = .ok c →
      convert_to_wmo c d = some w ∧ convert_to_dwd c w = some d := by
  intro c hc
  have hloop : stationListLoop (Dict.empty, Dict.empty) (pySplitLines html) =
      .ok ((e1 ++ (d, w) :: e2).foldl insertEntry (Dict.empty, Dict.empty)) := by
    rw [stationListLoop_extract]
    rw [extractEntries] at hx
    rw [hx, emap_ok]
  rw [parse_station_list] at hc
  simp only [hloop, ebind_ok] at hc
  by_cases hnil : ((e1 ++ (d, w) :: e2).foldl insertEntry
      (Dict.empty, Dict.empty)).1 = []
  · exfalso
    have hsome : ((e1 ++ (d, w) :: e2).foldl insertEntry
        (Dict.empty, Dict.empty)).1.get? d = some w := by
      rw [foldl_insertEntry_fst]
      exact get?_foldl_insert_last e1 e2 (d, w) _ hd
    rw [hnil] at hsome
    exact Option.noConfusion hsome
  · simp only [hnil, if_false, epure_eq, Except.ok.injEq] at hc
    subst hc
    constructor
    · show (((e1 ++ (d, w) :: e2).foldl insertEntry _).1).get? d = some w
      rw [foldl_insertEntry_fst]
      exact get?_foldl_insert_last e1 e2 (d, w) _ hd
    · show (((e1 ++ (d, w) :: e2).foldl insertEntry _).2).get? w = some d
      rw [foldl_insertEntry_snd]
      exact get?_foldl_insert_last (f := Prod.snd) (g := Prod.fst) e1 e2 (d, w) _ hw

/-- Counterexample to C3 as stated: the list holds the entries
`("00001", "AAA")` and `("00002", "AAA")`; for the first of them the round
trip national → international → national returns `"00002"`, not the
original `"00001"` (the later duplicate of `AAA` overwrote the reverse
map). -/
theorem stations_roundtrip_counterexample :
    (extractEntries dupWmoHtml).toOption =
      some [("00001", "AAA"), ("00002", "AAA")] ∧
    stateAfterLoad ⟨Dict.empty, Dict.empty⟩ dupWmoHtml =
      ⟨[("00001", "AAA"), ("00002", "AAA")], [("AAA", "00002")]⟩ ∧
    (convert_to_wmo ⟨[("00001", "AAA"), ("00002", "AAA")], [("AAA", "00002")]⟩
        "00001").bind
      (convert_to_dwd
        ⟨[("00001", "AAA"), ("00002", "AAA")], [("AAA", "00002")]⟩) =
      some "00002" ∧ some "00002" ≠ some "00001" := by
  refine ⟨?_, ?_, by decide, by decide⟩ <;> decide

/-- Witness for C3's amended theorem on a one-entry reference list. -/
theorem stations_roundtrip_last_witness :
    convert_to_wmo (stateAfterLoad ⟨Dict.empty, Dict.empty⟩ oneEntryHtml)
        "00001" = some "AAA" ∧
    convert_to_dwd (stateAfterLoad ⟨Dict.empty, Dict.empty⟩ oneEntryHtml)
        "AAA" = some "00001" := by
  have h := stations_roundtrip_last ⟨Dict.empty, Dict.empty⟩ oneEntryHtml
    [] [] "00001" "AAA" (by decide) (by simp) (by simp)
    ⟨[("00001", "AAA")], [("AAA", "00001")]⟩ (by decide)
  simpa [stateAfterLoad, show parse_station_list ⟨Dict.empty, Dict.empty⟩
    oneEntryHtml = .ok ⟨[("00001", "AAA")], [("AAA", "00001")]⟩ from by decide]
    using h

/-- C4: a `load` whose reference list yields zero valid entries raises the
assertion error and leaves the previously loaded maps exactly unchanged. -/
theorem stations_load_atomic (c : StationIDConverter) (html : List Char)
    (h : extractEntries html = .ok []) :
    parse_station_list c html = .error .assertError ∧
    stateAfterLoad c html = c := by
  have hloop : stationListLoop (Dict.empty, Dict.empty) (pySplitLines html) =
      .ok (Dict.empty, Dict.empty) := by
    rw [stationListLoop_extract]
    rw [extractEntries] at h
    rw [h, emap_ok]
    rfl
  have hp : parse_station_list c html = .error .assertError := by
    rw [parse_station_list]
    simp only [hloop, ebind_ok]
    rfl
  exact ⟨hp, by rw [stateAfterLoad, hp]⟩

/-- Witness for C4 on the empty reference list and a nonempty prior
state. -/
theorem stations_load_atomic_witness :
    parse_station_list ⟨[("a", "b")], [("b", "a")]⟩ [] =
      .error .assertError ∧
    stateAfterLoad ⟨[("a", "b")], [("b", "a")]⟩ [] =
      ⟨[("a", "b")], [("b", "a")]⟩ :=
  stations_load_atomic ⟨[("a", "b")], [("b", "a")]⟩ [] rfl

end Dwdparse

namespace Dwdparse

theorem fix_precip_cases {r r' : Dict PyVal}
    (h : mosmix_fix_precipitation r = .ok r') :
    r' = r ∨ r' = r.insert "precipitation" .null := by
  rw [mosmix_fix_precipitation] at h
  cases hp : r.getE "precipitation" with
  | error e => rw [hp, ebind_error] at h; cases h
  | ok p =>
      rw [hp, ebind_ok] at h
      by_cases ht : p.truthy
      · rw [if_pos ht] at h
        cases hb : p.ltNum 0 with
        | error e => rw [hb, ebind_error] at h; cases h
        | ok b =>
            rw [hb, ebind_ok] at h
            cases b
            · exact Or.inl (Except.ok.inj h).symm
            · exact Or.inr (Except.ok.inj h).symm
      · rw [if_neg ht] at h
        exact Or.inl (Except.ok.inj h).symm

theorem fix_wind_cases {r r' : Dict PyVal}
    (h : mosmix_fix_wind_direction r = .ok r') :
    r' = r ∨ ∃ q : ℚ, r' = r.insert "wind_direction" (.num q) := by
  rw [mosmix_fix_wind_direction] at h
  cases hw : r.getE "wind_direction" with
  | error e => rw [hw, ebind_error] at h; cases h
  | ok wd =>
      rw [hw, ebind_ok] at h
      by_cases ht : wd.truthy
      · rw [if_pos ht] at h
        cases hb : wd.gtNum 360 with
        | error e => rw [hb, ebind_error] at h; cases h
        | ok b =>
            rw [hb, ebind_ok] at h
            cases b
            · exact Or.inl (Except.ok.inj h).symm
            · cases wd with
              | num q => exact Or.inr ⟨q - 360, (Except.ok.inj h).symm⟩
              | null => cases h
              | str s => cases h
              | time t => cases h
      · rw [if_neg ht] at h
        exact Or.inl (Except.ok.inj h).symm

theorem fix_cloud_block2_cases {r1 r' : Dict PyVal}
    (h : (do
        let cc2 ← r1.getE "cloud_cover"
        if cc2.truthy then do
          let b ← cc2.gtNum 100
          pure (if b then r1.insert "cloud_cover" (.num 100) else r1)
        else pure r1 : Except PyErr (Dict PyVal)) = .ok r') :
    r' = r1 ∨ r' = r1.insert "cloud_cover" (.num 100) := by
  cases hc : r1.getE "cloud_cover" with
  | error e => rw [hc, ebind_error] at h; cases h
  | ok cc =>
      rw [hc, ebind_ok] at h
      by_cases ht : cc.truthy
      · rw [if_pos ht] at h
        cases hb : cc.gtNum 100 with
        | error e => rw [hb, ebind_error] at h; cases h
        | ok b =>
            rw [hb, ebind_ok] at h
            cases b
            · exact Or.inl (Except.ok.inj h).symm
            · exact Or.inr (Except.ok.inj h).symm
      · rw [if_neg ht] at h
        exact Or.inl (Except.ok.inj h).symm

theorem fix_cloud_cases {r r' : Dict PyVal}
    (h : mosmix_fix_cloud_cover r = .ok r') :
    ∃ r1, (r1 = r ∨ r1 = r.insert "cloud_cover" (.num 0)) ∧
      (r' = r1 ∨ r' = r1.insert "cloud_cover" (.num 100)) := by
  rw [mosmix_fix_cloud_cover] at h
  cases hc : r.getE "cloud_cover" with
  | error e => rw [hc, ebind_error] at h; cases h
  | ok cc =>
      rw [hc, ebind_ok] at h
      by_cases ht : cc.truthy
      · rw [if_pos ht] at h
        cases hb : cc.ltNum 0 with
        | error e => rw [hb, ebind_error] at h; cases h
        | ok b =>
            rw [hb, ebind_ok] at h
            cases b
            · exact ⟨r, Or.inl rfl,
                fix_cloud_block2_cases (by simpa [ebind_ok] using h)⟩
            · exact ⟨r.insert "cloud_cover" (.num 0), Or.inr rfl,
                fix_cloud_block2_cases (by simpa [ebind_ok] using h)⟩
      · rw [if_neg ht] at h
        exact ⟨r, Or.inl rfl,
          fix_cloud_block2_cases (by simpa [ebind_ok] using h)⟩

theorem fix_wind_char (r : Dict PyVal) (q : ℚ)
    (h : r.get? "wind_direction" = some (.num q)) :
    mosmix_fix_wind_direction r =
      .ok (if q ≠ 0 ∧ 360 < q then
        r.insert "wind_direction" (.num (q - 360)) else r) := by
  simp only [mosmix_fix_wind_direction, Dict.getE, h, ebind_ok]
  by_cases hq : q = 0
  · subst hq
    simp [PyVal.truthy, epure_eq]
  · by_cases h360 : (360 : ℚ) < q
    · simp [PyVal.truthy, PyVal.gtNum, hq, h360, ebind_ok, epure_eq]
    · simp [PyVal.truthy, PyVal.gtNum, hq, h360, ebind_ok, epure_eq]

theorem fix_cloud_char (r : Dict PyVal) (c : ℚ)
    (h : r.get? "cloud_cover" = some (.num c)) :
    mosmix_fix_cloud_cover r =
      .ok (if c < 0 then r.insert "cloud_cover" (.num 0)
           else if 100 < c then r.insert "cloud_cover" (.num 100)
           else r) := by
  simp only [mosmix_fix_cloud_cover, Dict.getE, h, ebind_ok]
  by_cases hq : c = 0
  · subst hq
    simp [PyVal.truthy, Dict.getE, h, ebind_ok, epure_eq]
    rw [if_neg (by norm_num)]
  · by_cases hneg : c < 0
    · simp [PyVal.truthy, PyVal.ltNum, hq, hneg, ebind_ok, epure_eq,
        Dict.getE, Dict.get?_insert_self]
    · by_cases h100 : (100 : ℚ) < c
      · simp [PyVal.truthy, PyVal.ltNum, PyVal.gtNum, hq, hneg, h100,
          Dict.getE, h, ebind_ok, epure_eq]
      · simp [PyVal.truthy, PyVal.ltNum, PyVal.gtNum, hq, hneg, h100,
          Dict.getE, h, ebind_ok, epure_eq]

end Dwdparse

namespace Dwdparse

theorem fix_precip_get {r r' : Dict PyVal} (k : String)
    (hk : k ≠ "precipitation")
    (h : mosmix_fix_precipitation r = .ok r') : r'.get? k = r.get? k := by
  rcases fix_precip_cases h with rfl | rfl
  · rfl
  · exact Dict.get?_insert_ne _ _ _ _ (Ne.symm hk)

theorem fix_wind_get {r r' : Dict PyVal} (k : String)
    (hk : k ≠ "wind_direction")
    (h : mosmix_fix_wind_direction r = .ok r') : r'.get? k = r.get? k := by
  rcases fix_wind_cases h with rfl | ⟨q, rfl⟩
  · rfl
  · exact Dict.get?_insert_ne _ _ _ _ (Ne.symm hk)

theorem fix_cloud_get {r r' : Dict PyVal} (k : String)
    (hk : k ≠ "cloud_cover")
    (h : mosmix_fix_cloud_cover r = .ok r') : r'.get? k = r.get? k := by
  obtain ⟨r1, h1, h2⟩ := fix_cloud_cases h
  have e1 : r1.get? k = r.get? k := by
    rcases h1 with rfl | rfl
    · rfl
    · exact Dict.get?_insert_ne _ _ _ _ (Ne.symm hk)
  rcases h2 with rfl | rfl
  · exact e1
  · rw [Dict.get?_insert_ne _ _ _ _ (Ne.symm hk)]; exact e1

/-- C7 (amended): after `MOSMIXParser` sanitization, a numeric wind
direction above 360 is reduced by exactly 360; the bound
`0 ≤ wind_direction ≤ 360` therefore holds whenever the incoming value lies
in `[0, 720]` — not for arbitrary records (see the counterexample). -/
theorem mosmix_wind_direction_sanitized (r r' : Dict PyVal) (q : ℚ)
    (hwd : r.get? "wind_direction" = some (.num q))
    (hs : mosmix_sanitize_record r = .ok r') :
    r'.get? "wind_direction" =
      some (.num (if q ≠ 0 ∧ 360 < q then q - 360 else q)) ∧
    (360 < q → r'.get? "wind_direction" = some (.num (q - 360))) ∧
    (0 ≤ q → q ≤ 720 →
      ∃ q', r'.get? "wind_direction" = some (.num q') ∧
        0 ≤ q' ∧ q' ≤ 360) := by
  rw [mosmix_sanitize_record] at hs
  cases hp : mosmix_fix_precipitation r with
  | error e => rw [hp, ebind_error] at hs; cases hs
  | ok r1 =>
      rw [hp, ebind_ok] at hs
      have hwd1 : r1.get? "wind_direction" = some (.num q) := by
        rw [fix_precip_get _ (by decide) hp]; exact hwd
      rw [fix_wind_char r1 q hwd1, ebind_ok] at hs
      have hval : r'.get? "wind_direction" =
          some (.num (if q ≠ 0 ∧ 360 < q then q - 360 else q)) := by
        by_cases hc : q ≠ 0 ∧ 360 < q
        · rw [if_pos hc] at hs ⊢
          rw [fix_cloud_get _ (by decide) hs, Dict.get?_insert_self]
        · rw [if_neg hc] at hs ⊢
          rw [fix_cloud_get _ (by decide) hs]; exact hwd1
      refine ⟨hval, ?_, ?_⟩
      · intro h360
        have : (q ≠ 0 ∧ 360 < q) := ⟨by intro h0; rw [h0] at h360; norm_num at h360, h360⟩
        rw [hval, if_pos this]
      · intro h0 h720
        by_cases hc : q ≠ 0 ∧ 360 < q
        · exact ⟨q - 360, by rw [hval, if_pos hc], by linarith [hc.2], by linarith⟩
        · refine ⟨q, by rw [hval, if_neg hc], h0, ?_⟩
          by_cases hq0 : q = 0
          · rw [hq0]; norm_num
          · have : ¬ 360 < q := fun h360 => hc ⟨hq0, h360⟩
            linarith

/-- Counterexample to C7 as stated: a record with wind direction 800 is
sanitized to 440, which still violates `0 ≤ wind_direction ≤ 360`. -/
theorem mosmix_wind_direction_counterexample :
    mosmix_sanitize_record windCounterRec =
      .ok [("precipitation", .null), ("wind_direction", .num 440),
           ("cloud_cover", .null)] ∧
    ¬ ((440 : ℚ) ≤ 360) := by
  constructor
  · with_unfolding_all rfl
  · norm_num

/-- Witness for C7's amended theorem at a record with wind direction 400. -/
theorem mosmix_wind_direction_sanitized_witness :
    Dict.get? windWitnessRec "wind_direction" = some (.num 400) ∧
    mosmix_sanitize_record windWitnessRec =
      .ok [("precipitation", .null), ("wind_direction", .num 40),
           ("cloud_cover", .null)] ∧
    Dict.get? [("precipitation", PyVal.null), ("wind_direction", PyVal.num 40),
        ("cloud_cover", PyVal.null)] "wind_direction" =
      some (.num (if (400 : ℚ) ≠ 0 ∧ 360 < (400 : ℚ) then 400 - 360 else 400)) :=
  ⟨by decide, by with_unfolding_all rfl,
    (mosmix_wind_direction_sanitized windWitnessRec _ 400 (by decide)
      (by with_unfolding_all rfl)).1⟩

end Dwdparse

namespace Dwdparse

theorem null_if_above_cases {k : String} {t : ℚ} {r r' : Dict PyVal}
    (h : null_if_above k t r = .ok r') :
    r' = r ∨ r' = r.insert k .null := by
  rw [null_if_above] at h
  cases hv : r.getE k with
  | error e => rw [hv, ebind_error] at h; cases h
  | ok v =>
      rw [hv, ebind_ok] at h
      by_cases ht : v.truthy
      · rw [if_pos ht] at h
        cases hb : v.gtNum t with
        | error e => rw [hb, ebind_error] at h; cases h
        | ok b =>
            rw [hb, ebind_ok] at h
            cases b
            · exact Or.inl (Except.ok.inj h).symm
            · exact Or.inr (Except.ok.inj h).symm
      · rw [if_neg ht] at h
        exact Or.inl (Except.ok.inj h).symm

theorem null_if_above_char (k : String) (t : ℚ) (r : Dict PyVal) (c : ℚ)
    (h : r.get? k = some (.num c)) :
    null_if_above k t r = .ok (if c ≠ 0 ∧ t < c then r.insert k .null else r) := by
  simp only [null_if_above, Dict.getE, h, ebind_ok]
  by_cases hq : c = 0
  · subst hq
    simp [PyVal.truthy, epure_eq]
  · by_cases hgt : t < c
    · simp [PyVal.truthy, PyVal.gtNum, hq, hgt, ebind_ok, epure_eq]
    · simp [PyVal.truthy, PyVal.gtNum, hq, hgt, ebind_ok, epure_eq]

theorem synop_loop_get {fs : List String} {r r' : Dict PyVal} (k : String)
    (hk : startsWithChars "precipitation_".data k.data = false)
    (h : synop_sanitize_loop r fs = .ok r') : r'.get? k = r.get? k := by
  induction fs generalizing r with
  | nil => exact congrArg (fun d => Dict.get? d k) (Except.ok.inj h).symm
  | cons f fs ih =>
      rw [synop_sanitize_loop] at h
      by_cases hf : startsWithChars "precipitation_".data f.data
      · rw [if_pos hf] at h
        simp only [] at h
        have hne : f ≠ k := by
          intro e; rw [e] at hf; rw [hf] at hk; cases hk
        cases hb : (if ((r.get? f).getD .null).truthy
            then (r.get? f).getD .null else .num 0).ltNum 0 with
        | error e => rw [hb, ebind_error] at h; cases h
        | ok b =>
            rw [hb, ebind_ok] at h
            cases b
            · rw [if_neg Bool.false_ne_true] at h
              exact ih h
            · rw [if_pos rfl] at h
              rw [ih h, Dict.get?_insert_ne _ _ _ _ hne]
      · rw [if_neg hf] at h
        exact ih h

end Dwdparse

namespace Dwdparse

theorem null_if_above_get {k : String} {t : ℚ} {r r' : Dict PyVal}
    (k' : String) (hk : k' ≠ k) (h : null_if_above k t r = .ok r') :
    r'.get? k' = r.get? k' := by
  rcases null_if_above_cases h with rfl | rfl
  · rfl
  · exact Dict.get?_insert_ne _ _ _ _ (Ne.symm hk)

theorem mosmix_sanitize_cloud (r r' : Dict PyVal) (c : ℚ)
    (hc : r.get? "cloud_cover" = some (.num c))
    (hs : mosmix_sanitize_record r = .ok r') :
    ∃ c', r'.get? "cloud_cover" = some (.num c') ∧ 0 ≤ c' ∧ c' ≤ 100 := by
  rw [mosmix_sanitize_record] at hs
  cases hp : mosmix_fix_precipitation r with
  | error e => rw [hp, ebind_error] at hs; cases hs
  | ok r1 =>
      rw [hp, ebind_ok] at hs
      cases hw : mosmix_fix_wind_direction r1 with
      | error e => rw [hw, ebind_error] at hs; cases hs
      | ok r2 =>
          rw [hw, ebind_ok] at hs
          have hc2 : r2.get? "cloud_cover" = some (.num c) := by
            rw [fix_wind_get _ (by decide) hw, fix_precip_get _ (by decide) hp]
            exact hc
          rw [fix_cloud_char r2 c hc2] at hs
          have hr' := (Except.ok.inj hs).symm
          subst hr'
          by_cases hneg : c < 0
          · refine ⟨0, ?_, le_refl 0, by norm_num⟩
            rw [if_pos hneg, Dict.get?_insert_self]
          · by_cases h100 : 100 < c
            · refine ⟨100, ?_, by norm_num, le_refl 100⟩
              rw [if_neg hneg, if_pos h100, Dict.get?_insert_self]
            · refine ⟨c, ?_, by linarith, by linarith⟩
              rw [if_neg hneg, if_neg h100]
              exact hc2

theorem synop_sanitize_cloud (r r' : Dict PyVal) (c : ℚ)
    (hc : r.get? "cloud_cover" = some (.num c))
    (hs : synop_sanitize_record r = .ok r') :
    (100 < c → r'.get? "cloud_cover" = some .null) ∧
    (c ≤ 100 → r'.get? "cloud_cover" = some (.num c)) := by
  rw [synop_sanitize_record] at hs
  cases hl : synop_sanitize_loop r r.keys with
  | error e => rw [hl, ebind_error] at hs; cases hs
  | ok r1 =>
      rw [hl, ebind_ok] at hs
      simp only [] at hs
      have hc1 : r1.get? "cloud_cover" = some (.num c) := by
        rw [synop_loop_get _ (by decide) hl]; exact hc
      rw [hc1] at hs
      simp only [Option.getD_some] at hs
      by_cases hq : c = 0
      · subst hq
        have ht : (PyVal.num 0).truthy = false := by decide
        rw [ht, if_neg Bool.false_ne_true] at hs
        have hb : (PyVal.num 0).gtNum 100 = .ok false := by decide
        rw [hb, ebind_ok, if_neg Bool.false_ne_true] at hs
        have hr' := (Except.ok.inj hs).symm
        subst hr'
        exact ⟨fun h => absurd h (by norm_num), fun _ => hc1⟩
      · have ht : (PyVal.num c).truthy = true := by
          simp [PyVal.truthy, hq]
        rw [ht, if_pos rfl] at hs
        have hb : (PyVal.num c).gtNum 100 = .ok (decide (100 < c)) := rfl
        rw [hb, ebind_ok] at hs
        by_cases h100 : 100 < c
        · rw [if_pos (by simp [h100])] at hs
          have hr' := (Except.ok.inj hs).symm
          subst hr'
          refine ⟨fun _ => Dict.get?_insert_self _ _ _, fun hle => absurd h100 (by linarith)⟩
        · rw [if_neg (by simp [h100])] at hs
          have hr' := (Except.ok.inj hs).symm
          subst hr'
          exact ⟨fun h => absurd h h100, fun _ => hc1⟩

theorem current_sanitize_cloud (r r' : Dict PyVal) (c : ℚ)
    (hc : r.get? "cloud_cover" = some (.num c))
    (hs : current_sanitize_record r = .ok r') :
    (100 < c → r'.get? "cloud_cover" = some .null) ∧
    (c ≤ 100 → r'.get? "cloud_cover" = some (.num c)) := by
  rw [current_sanitize_record] at hs
  rw [null_if_above_char "cloud_cover" 100 r c hc, ebind_ok] at hs
  cases h2 : null_if_above "relative_humidity" 100
      (if c ≠ 0 ∧ 100 < c then r.insert "cloud_cover" .null else r) with
  | error e => rw [h2, ebind_error] at hs; cases hs
  | ok r2 =>
      rw [h2, ebind_ok] at hs
      have hcc2 : r2.get? "cloud_cover" =
          (if c ≠ 0 ∧ 100 < c then r.insert "cloud_cover" PyVal.null
            else r).get? "cloud_cover" :=
        null_if_above_get _ (by decide) h2
      have hcc' : r'.get? "cloud_cover" = r2.get? "cloud_cover" :=
        null_if_above_get _ (by decide) hs
      rw [hcc', hcc2]
      by_cases h100 : 100 < c
      · have hcond : c ≠ 0 ∧ 100 < c := ⟨by intro h0; rw [h0] at h100; norm_num at h100, h100⟩
        rw [if_pos hcond, Dict.get?_insert_self]
        exact ⟨fun _ => rfl, fun hle => absurd h100 (by linarith)⟩
      · rw [if_neg (fun hcond => h100 hcond.2)]
        exact ⟨fun h => absurd h h100, fun _ => hc⟩

/-- C8 (amended): after sanitization a present numeric cloud cover is never
above 100 in any of the three sanitizers; the forecast sanitizer also
clamps negative values to 0, so its output lies in `[0, 100]`; the synop
and current-observations sanitizers null out values above 100 but pass
negative values through unchanged, so for them `[0, 100]` holds only when
the incoming value is nonnegative (see the counterexample). -/
theorem cloud_cover_sanitized :
    (∀ r r' : Dict PyVal, ∀ c : ℚ, Dict.get? r "cloud_cover" = some (.num c) →
      mosmix_sanitize_record r = .ok r' →
      ∃ c', Dict.get? r' "cloud_cover" = some (.num c') ∧
        0 ≤ c' ∧ c' ≤ 100) ∧
    (∀ r r' : Dict PyVal, ∀ c : ℚ, Dict.get? r "cloud_cover" = some (.num c) →
      synop_sanitize_record r = .ok r' →
      (100 < c → Dict.get? r' "cloud_cover" = some .null) ∧
      (c ≤ 100 → Dict.get? r' "cloud_cover" = some (.num c))) ∧
    (∀ r r' : Dict PyVal, ∀ c : ℚ, Dict.get? r "cloud_cover" = some (.num c) →
      current_sanitize_record r = .ok r' →
      (100 < c → Dict.get? r' "cloud_cover" = some .null) ∧
      (c ≤ 100 → Dict.get? r' "cloud_cover" = some (.num c))) :=
  ⟨mosmix_sanitize_cloud, synop_sanitize_cloud, current_sanitize_cloud⟩

/-- Counterexample to C8 as stated: the synop sanitizer leaves a cloud
cover of −5 untouched, so the emitted record still carries a present value
outside `[0, 100]`. -/
theorem cloud_cover_counterexample :
    synop_sanitize_record synopCloudCounterRec = .ok synopCloudCounterRec ∧
    Dict.get? synopCloudCounterRec "cloud_cover" = some (.num (-5)) ∧
    ¬ (0 ≤ (-5 : ℚ)) := by
  refine ⟨by with_unfolding_all rfl, by with_unfolding_all rfl, by norm_num⟩

/-- Witness for C8's amended theorem at a forecast record with cloud cover
250 (clamped to 100). -/
theorem cloud_cover_sanitized_witness :
    Dict.get? cloudWitnessRec "cloud_cover" = some (.num 250) ∧
    mosmix_sanitize_record cloudWitnessRec =
      .ok [("precipitation", .null), ("wind_direction", .null),
           ("cloud_cover", .num 100)] ∧
    (0 : ℚ) ≤ 100 ∧ (100 : ℚ) ≤ 100 := by
  have h1 : Dict.get? cloudWitnessRec "cloud_cover" = some (.num 250) := by
    decide
  have h2 : mosmix_sanitize_record cloudWitnessRec =
      .ok [("precipitation", .null), ("wind_direction", .null),
           ("cloud_cover", .num 100)] := by
    with_unfolding_all rfl
  obtain ⟨c', hc', h0, h100⟩ := cloud_cover_sanitized.1 cloudWitnessRec _ 250 h1 h2
  have hc100 : c' = 100 := by
    rw [show Dict.get? [("precipitation", PyVal.null),
        ("wind_direction", PyVal.null), ("cloud_cover", PyVal.num 100)]
        "cloud_cover" = some (PyVal.num 100) from by decide] at hc'
    exact (PyVal.num.inj (Option.some.inj hc')).symm
  subst hc100
  exact ⟨h1, h2, h0, h100⟩

end Dwdparse

namespace Dwdparse

theorem station_params_loop_spec (ts : ℤ) :
    ∀ (hist : List (ℤ × StationInfo)) (info : Option StationInfo),
      List.Pairwise (fun a b : ℤ × StationInfo => a.1 ≤ b.1) hist →
      station_params_loop ts hist info =
        match (hist.filter (fun e => e.1 ≤ ts)).getLast? with
        | some e => some e.2
        | none => info := by
  intro hist
  induction hist with
  | nil => intro info _; rfl
  | cons e rest ih =>
      intro info hp
      rw [List.pairwise_cons] at hp
      obtain ⟨hhead, htail⟩ := hp
      by_cases hgt : e.1 > ts
      · rw [station_params_loop.eq_def]
        simp only []
        rw [if_pos hgt]
        have hfe : ¬ (e.1 ≤ ts) := by omega
        have hrest : rest.filter (fun x => x.1 ≤ ts) = [] := by
          rw [List.filter_eq_nil_iff]
          intro x hx
          have := hhead x hx
          simp only [decide_eq_true_eq]
          omega
        simp [List.filter_cons, hfe, hrest]
      · have hle : e.1 ≤ ts := by omega
        rw [station_params_loop.eq_def]
        simp only []
        rw [if_neg hgt, ih (some e.2) htail]
        have : (e :: rest).filter (fun x => x.1 ≤ ts) =
            e :: rest.filter (fun x => x.1 ≤ ts) := by
          simp [List.filter_cons, hle]
        rw [this]
        cases hrf : (rest.filter (fun x => x.1 ≤ ts)).getLast? with
        | none =>
            have : rest.filter (fun x => x.1 ≤ ts) = [] := by
              cases hx : rest.filter (fun x => x.1 ≤ ts) with
              | nil => rfl
              | cons y ys => rw [hx] at hrf; simp [List.getLast?] at hrf
            simp [this, List.getLast?]
        | some y =>
            cases hx : rest.filter (fun x => x.1 ≤ ts) with
            | nil => rw [hx] at hrf; simp [List.getLast?] at hrf
            | cons z zs =>
                rw [hx] at hrf
                simp [List.getLast?_cons, hx, hrf]

end Dwdparse

namespace Dwdparse

theorem station_params_spec (ts : ℤ) (hist : List (ℤ × StationInfo))
    (hs : List.Pairwise (fun a b : ℤ × StationInfo => a.1 ≤ b.1) hist) :
    station_params ts hist = spec_station_params ts hist := by
  rw [station_params, station_params_loop_spec ts hist none hs,
    spec_station_params]
  cases (hist.filter (fun e => e.1 ≤ ts)).getLast? <;> simp

theorem Dict.get?_merge_none {α : Type} (d d2 : Dict α) (k : String)
    (h : d2.get? k = none) : (d.merge d2).get? k = d.get? k := by
  induction d2 generalizing d with
  | nil => rfl
  | cons p rest ih =>
      rw [Dict.get?] at h
      by_cases hp : p.1 = k
      · rw [if_pos hp] at h; cases h
      · rw [if_neg hp] at h
        show ((d.insert p.1 p.2).merge rest).get? k = d.get? k
        rw [ih _ h, Dict.get?_insert_ne _ _ _ _ hp]

/-- C9 (amended): with a date-sorted metadata history, the station
parameters resolved for a row are those of the last entry whose
effective-from is ≤ the row's timestamp, and the emitted record carries
them; but when no entry covers the timestamp the decode fails with a
`TypeError` (unpacking `None`) instead of emitting absent position
fields. -/
theorem obs_reader_station_params {α : Type}
    (parseElems : α → ℚ → ℚ → ℚ → Except PyErr (Dict PyVal))
    (fn : String) (hist : List (ℤ × StationInfo)) (ts : ℤ) (a : α)
    (rows : List (ℤ × α))
    (hsorted : List.Pairwise (fun e f : ℤ × StationInfo => e.1 ≤ f.1) hist) :
    station_params ts hist = spec_station_params ts hist ∧
    (spec_station_params ts hist = none →
      obs_parse_reader (fun _ => false) parseElems fn hist ((ts, a) :: rows) =
        .error .typeError) ∧
    (∀ la lo he nm, spec_station_params ts hist = some (la, lo, he, nm) →
      ∀ elems, parseElems a la lo he = .ok elems →
        elems.get? "lat" = none → elems.get? "lon" = none →
        elems.get? "height" = none → elems.get? "station_name" = none →
        ∀ out, obs_parse_reader (fun _ => false) parseElems fn hist
            ((ts, a) :: rows) = .ok out →
          ∃ r rest, out = r :: rest ∧
            r.get? "lat" = some (.num la) ∧ r.get? "lon" = some (.num lo) ∧
            r.get? "height" = some (.num he) ∧
            r.get? "station_name" = some (.str nm)) := by
  have hsp := station_params_spec ts hist hsorted
  refine ⟨hsp, ?_, ?_⟩
  · intro hnone
    rw [obs_parse_reader]
    rw [if_neg (by simp)]
    rw [hsp, hnone]
    rfl
  · intro la lo he nm hsome elems helems hlat hlon hhe hnm out hout
    rw [obs_parse_reader, if_neg (by simp), hsp, hsome] at hout
    simp only [epure_eq, ebind_ok] at hout
    rw [helems, ebind_ok] at hout
    cases hrest : obs_parse_reader (fun _ => false) parseElems fn hist rows with
    | error e => rw [hrest, emap_error] at hout; cases hout
    | ok outs =>
        rw [hrest, emap_ok] at hout
        have hout' := (Except.ok.inj hout).symm
        refine ⟨_, outs, hout', ?_, ?_, ?_, ?_⟩
        · rw [Dict.get?_merge_none _ _ _ hlat]; rfl
        · rw [Dict.get?_merge_none _ _ _ hlon]; rfl
        · rw [Dict.get?_merge_none _ _ _ hhe]; rfl
        · rw [Dict.get?_merge_none _ _ _ hnm]; rfl

/-- Counterexample to C9 as stated: a history whose single entry becomes
effective only after the row's timestamp makes the decode raise
(`TypeError` from unpacking `None`); no record with absent position fields
is emitted. -/
theorem obs_reader_counterexample :
    obs_parse_reader (fun _ => false) (fun (_ : Unit) _ _ _ => .ok []) "f"
      [(10, ((1 : ℚ), (2 : ℚ), (3 : ℚ), "x"))] [(5, ())] =
      .error .typeError := by
  decide

/-- Witness for C9's amended theorem on a one-entry history. -/
theorem obs_reader_station_params_witness :
    station_params 15 [(10, ((1 : ℚ), (2 : ℚ), (3 : ℚ), "x"))] =
      spec_station_params 15 [(10, ((1 : ℚ), (2 : ℚ), (3 : ℚ), "x"))] ∧
    obs_parse_reader (fun _ => false) (fun (_ : Unit) _ _ _ => .ok []) "f"
      [(10, ((1 : ℚ), (2 : ℚ), (3 : ℚ), "x"))] [(3, ())] =
      .error .typeError := by
  constructor
  · exact (obs_reader_station_params (fun (_ : Unit) _ _ _ => .ok []) "f"
      [(10, ((1 : ℚ), (2 : ℚ), (3 : ℚ), "x"))] 15 () [] (by simp)).1
  · exact (obs_reader_station_params (fun (_ : Unit) _ _ _ => .ok []) "f"
      [(10, ((1 : ℚ), (2 : ℚ), (3 : ℚ), "x"))] 3 () [] (by simp)).2.1
      (by decide)

end Dwdparse

namespace Dwdparse

/-- C5 (amended): when the reported sea-level pressure is absent — or zero,
which Python truthiness treats as absent — and the station-level pressure
is present and nonzero, the emitted `pressure_msl` is the barometric
formula value rounded to the nearest 10 Pa; a nonzero directly reported
sea-level value is emitted unchanged. -/
theorem pressure_parse_elements_spec :
    (∀ (p0 h : ℝ) (msl : Option ℝ), (msl = none ∨ msl = some 0) → p0 ≠ 0 →
      pressure_parse_elements msl (some p0) h =
        some ((round (p0 * (1 - 0.0065 * h / 288.15) ^ (-5.255 : ℝ) / 10) * 10
          : ℤ) : ℝ)) ∧
    (∀ (v h : ℝ) (pst : Option ℝ), v ≠ 0 →
      pressure_parse_elements (some v) pst h = some v) := by
  constructor
  · intro p0 h msl hmsl hp0
    rw [pressure_parse_elements.eq_def,
      if_pos ⟨hmsl, by simp, by simpa using hp0⟩]
  · intro v h pst hv
    rw [pressure_parse_elements.eq_def, if_neg]
    rintro ⟨hfalsy, -, -⟩
    rcases hfalsy with h1 | h1
    · cases h1
    · exact hv (Option.some.inj h1)

/-- Counterexample to C5 as stated: a directly reported sea-level pressure
of 0 Pa is not emitted unchanged — the approximation overwrites it (station
pressure 100000 Pa at height 0 yields 100000, not 0). -/
theorem pressure_counterexample :
    pressure_parse_elements (some 0) (some 100000) 0 = some 100000 ∧
    (some (100000 : ℝ)) ≠ some (0 : ℝ) := by
  constructor
  · rw [pressure_parse_elements.eq_def,
      if_pos ⟨Or.inr rfl, by simp, by norm_num⟩]
    simp only []
    have h1 : (1 : ℝ) - 0.0065 * 0 / 288.15 = 1 := by norm_num
    rw [h1, Real.one_rpow]
    have h2 : (100000 : ℝ) * 1 / 10 = ((10000 : ℤ) : ℝ) := by norm_num
    rw [h2, round_intCast]
    norm_num
  · simp only [ne_eq, Option.some.injEq]
    norm_num

/-- Witness for C5's amended theorem: station pressure 100000 Pa at height
0 with absent sea-level pressure emits exactly 100000 Pa. -/
theorem pressure_parse_elements_spec_witness :
    pressure_parse_elements none (some 100000) 0 = some 100000 := by
  have h := pressure_parse_elements_spec.1 100000 0 none (Or.inl rfl)
    (by norm_num)
  rw [h]
  have h1 : (1 : ℝ) - 0.0065 * 0 / 288.15 = 1 := by norm_num
  rw [h1, Real.one_rpow]
  have h2 : (100000 : ℝ) * 1 / 10 = ((10000 : ℤ) : ℝ) := by norm_num
  rw [h2, round_intCast]
  norm_num

end Dwdparse

namespace Dwdparse

theorem synop_walk_append (units : UnitsModel) (sic : StationIDConverter)
    (pre post : List Node) :
    ∀ r d, synop_walk units sic r d (pre ++ post) =
      (synop_walk units sic r d pre) >>=
        fun rd => synop_walk units sic rd.1 rd.2 post := by
  induction pre with
  | nil => intro r d; simp [synop_walk, ebind_ok]
  | cons b bs ih =>
      intro r d
      rw [List.cons_append, synop_walk, synop_walk]
      cases hb : synop_block units sic r d b with
      | error e => simp [hb, ebind_error]
      | ok rd => simp [hb, ebind_ok, ih]

theorem height_elem_keys (k : String)
    (h : (SYNOP_height_elements.get? k).isSome) :
    SYNOP_elements.get? k = none ∧ k ≠ SYNOP_height_field ∧
      (k = "airTemperature" ∨ k = "dewpointTemperature" ∨
        k = "relativeHumidity") := by
  by_cases h1 : ("airTemperature" : String) = k
  · subst h1; exact ⟨by decide, by decide, Or.inl rfl⟩
  · by_cases h2 : ("dewpointTemperature" : String) = k
    · subst h2; exact ⟨by decide, by decide, Or.inr (Or.inl rfl)⟩
    · by_cases h3 : ("relativeHumidity" : String) = k
      · subst h3; exact ⟨by decide, by decide, Or.inr (Or.inr rfl)⟩
      · exfalso
        simp only [SYNOP_height_elements, Dict.get?, h1, h2, h3,
          if_false] at h
        cases h

theorem synop_orphan_leaf_error (units : UnitsModel) (sic : StationIDConverter)
    (k : String) (v : PyVal) (r' d' : Dict PyVal)
    (hk : (SYNOP_height_elements.get? k).isSome)
    (hnoh : d'.get? SYNOP_height_field = none) (rest : List Node) :
    synop_walk units sic r' d' (.leaf k v :: rest) =
      .error (.keyError SYNOP_height_field) := by
  obtain ⟨helem, hne, hdisj⟩ := height_elem_keys k hk
  have hleaf : synop_leaf units sic r' (d'.insert k v) k v =
      .error (.keyError SYNOP_height_field) := by
    have hget : (d'.insert k v).getE SYNOP_height_field =
        .error (.keyError SYNOP_height_field) := by
      rw [Dict.getE, Dict.get?_insert_ne _ _ _ _ hne, hnoh]
    rcases hdisj with rfl | rfl | rfl <;>
      simp [synop_leaf, SYNOP_elements, SYNOP_height_elements, Dict.get?,
        hget, ebind_error]
  rw [synop_walk, synop_block]
  simp only []
  rw [hleaf, ebind_error, ebind_error]

end Dwdparse

namespace Dwdparse

theorem synop_parse_abort (units : UnitsModel) (sic : StationIDConverter)
    (m : List Node) (e0 : PyErr) (he0 : e0 ≠ .skipRecord)
    (hm : parse_message units sic m = .error e0) :
    ∀ ms1 ms2, ∃ e, e ≠ PyErr.skipRecord ∧
      synop_parse units sic (ms1 ++ m :: ms2) = .error e := by
  intro ms1 ms2
  induction ms1 with
  | nil =>
      refine ⟨e0, he0, ?_⟩
      rw [List.nil_append, synop_parse]
      rw [show (do
          let r ← parse_message units sic m
          synop_sanitize_record r : Except PyErr (Dict PyVal)) =
        .error e0 from by rw [hm, ebind_error]]
      cases e0 with
      | skipRecord => exact absurd rfl he0
      | keyError key => rfl
      | indexError => rfl
      | valueError => rfl
      | typeError => rfl
      | assertError => rfl
      | attrError => rfl
  | cons m0 ms1' ih =>
      obtain ⟨e, he, hrec⟩ := ih
      rw [List.cons_append, synop_parse]
      cases hres : (do
          let r ← parse_message units sic m0
          synop_sanitize_record r : Except PyErr (Dict PyVal)) with
      | ok r =>
          refine ⟨e, he, ?_⟩
          simp only [hres, hrec, emap_error]
      | error e1 =>
          cases e1 with
          | skipRecord => exact ⟨e, he, hrec⟩
          | keyError key => exact ⟨.keyError key, by simp, rfl⟩
          | indexError => exact ⟨.indexError, by simp, rfl⟩
          | valueError => exact ⟨.valueError, by simp, rfl⟩
          | typeError => exact ⟨.typeError, by simp, rfl⟩
          | assertError => exact ⟨.assertError, by simp, rfl⟩
          | attrError => exact ⟨.attrError, by simp, rfl⟩

end Dwdparse

namespace Dwdparse

/-- C10: a synoptic message whose walk reaches — at any nesting depth — a
height-qualified element leaf (`airTemperature`, `dewpointTemperature`,
`relativeHumidity`) at a point where no sensor-height key has yet been
seen anywhere on the current context path raises an uncaught `KeyError`
that aborts the entire decode (the surrounding message loop suppresses
only `SkipRecord`), instead of skipping that one message. -/
theorem synop_orphan_height_aborts (units : UnitsModel)
    (sic : StationIDConverter) (msg : List Node)
    (hreach : ReachesOrphan units sic
      [("observation_type", .str "synop")] Dict.empty msg) :
    parse_message units sic msg = .error (.keyError SYNOP_height_field) ∧
    ∀ ms1 ms2, ∃ e, e ≠ PyErr.skipRecord ∧
      synop_parse units sic (ms1 ++ msg :: ms2) = .error e := by
  have hwalk : ∀ (record data : Dict PyVal) (blocks : List Node),
      ReachesOrphan units sic record data blocks →
      synop_walk units sic record data blocks =
        .error (.keyError SYNOP_height_field) := by
    intro record data blocks hr
    induction hr with
    | here record data k v rest hk hnoh =>
        exact synop_orphan_leaf_error units sic k v record data hk hnoh rest
    | step record data b rest record' data' hb _ ih =>
        rw [synop_walk, hb, ebind_ok]
        exact ih
    | nest record data blocks rest _ ih =>
        rw [synop_walk, synop_block]
        simp only []
        rw [ih, ebind_error, ebind_error]
  have hmsg : parse_message units sic msg =
      .error (.keyError SYNOP_height_field) := by
    rw [parse_message, hwalk _ _ _ hreach, ebind_error]
  exact ⟨hmsg, synop_parse_abort units sic _ _ (by simp) hmsg⟩

/-- Witness for C10 at a message whose orphan `airTemperature` leaf sits
inside a nested block list. -/
theorem synop_orphan_height_aborts_witness :
    parse_message trivialUnits ⟨[], []⟩
      [.sub [.leaf "airTemperature" (.num 30)]] =
      .error (.keyError SYNOP_height_field) :=
  (synop_orphan_height_aborts trivialUnits ⟨[], []⟩
    [.sub [.leaf "airTemperature" (.num 30)]]
    (ReachesOrphan.nest _ _ _ _
      (ReachesOrphan.here _ _ "airTemperature" (.num 30) [] (by decide)
        rfl))).1

end Dwdparse

namespace Dwdparse

theorem Dict.insert_ne_nil {α : Type} (d : Dict α) (k : String) (v : α) :
    d.insert k v ≠ [] := by
  cases d with
  | nil => simp [Dict.insert]
  | cons p rest =>
      rw [Dict.insert]
      split <;> simp

theorem Dict.mem_insert {α : Type} (d : Dict α) (k : String) (v : α) :
    ∀ p ∈ d.insert k v, p = (k, v) ∨ p ∈ d := by
  induction d with
  | nil => intro p hp; simp [Dict.insert] at hp; exact Or.inl hp
  | cons q rest ih =>
      intro p hp
      rw [Dict.insert] at hp
      by_cases hq : q.1 = k
      · rw [if_pos hq] at hp
        rcases List.mem_cons.mp hp with rfl | hmem
        · exact Or.inl (by rw [hq])
        · exact Or.inr (List.mem_cons_of_mem _ hmem)
      · rw [if_neg hq] at hp
        rcases List.mem_cons.mp hp with rfl | hmem
        · exact Or.inr (List.mem_cons_self _ _)
        · rcases ih p hmem with h | h
          · exact Or.inl h
          · exact Or.inr (List.mem_cons_of_mem _ h)

theorem mosmix_parse_cells_length (units : UnitsModel) (col : String) :
    ∀ (toks : List String) (cells : List PyVal),
      mosmix_parse_cells units col toks = .ok cells →
      cells.length = toks.length := by
  intro toks
  induction toks with
  | nil =>
      intro cells h
      rw [mosmix_parse_cells] at h
      rw [← Except.ok.inj h]
      rfl
  | cons x rest ih =>
      intro cells h
      rw [mosmix_parse_cells] at h
      by_cases hx : x = "-"
      · rw [if_pos hx] at h
        simp only [epure_eq, ebind_ok] at h
        cases hvs : mosmix_parse_cells units col rest with
        | error e => rw [hvs, ebind_error] at h; cases h
        | ok vs =>
            rw [hvs, ebind_ok] at h
            rw [← Except.ok.inj h]
            simp [ih vs hvs]
      · rw [if_neg hx] at h
        cases hv : mosmix_converter units col x with
        | error e => rw [hv, ebind_error] at h; cases h
        | ok v =>
            rw [hv, ebind_ok] at h
            simp only [] at h
            cases hvs : mosmix_parse_cells units col rest with
            | error e => rw [hvs, ebind_error] at h; cases h
            | ok vs =>
                rw [hvs, ebind_ok, epure_eq] at h
                rw [← Except.ok.inj h]
                simp [ih vs hvs]

theorem mosmix_fold_alllen (units : UnitsModel) (n : ℕ) :
    ∀ (fcs : List (String × Option String))
      (recs recs' : Dict (List PyVal)),
      mosmix_fold units n recs fcs = .ok recs' →
      (∀ p ∈ recs, p.2.length = n) →
      ((∀ p ∈ recs', p.2.length = n) ∧ (recs ≠ [] → recs' ≠ [])) := by
  intro fcs
  induction fcs with
  | nil =>
      intro recs recs' h hall
      rw [mosmix_fold] at h
      rw [← Except.ok.inj h]
      exact ⟨hall, fun hne => hne⟩
  | cons fc rest ih =>
      intro recs recs' h hall
      rw [mosmix_fold] at h
      cases hcol : MOSMIX_ELEMENTS.get? fc.1 with
      | none => rw [hcol] at h; exact ih recs recs' h hall
      | some column =>
          rw [hcol] at h
          cases hval : fc.2 with
          | none =>
              rw [hval] at h
              simp only [] at h
              rw [ebind_error] at h
              cases h
          | some s =>
              rw [hval] at h
              simp only [epure_eq, ebind_ok] at h
              cases hcells : mosmix_parse_cells units column (splitWs s) with
              | error e => rw [hcells, ebind_error] at h; cases h
              | ok cells =>
                  rw [hcells, ebind_ok] at h
                  by_cases hlen : cells.length = n
                  · rw [if_pos hlen] at h
                    have hall2 : ∀ p ∈ recs.insert column cells,
                        p.2.length = n := by
                      intro p hp
                      rcases Dict.mem_insert recs column cells p hp with rfl | hm
                      · exact hlen
                      · exact hall p hm
                    have := ih _ recs' h hall2
                    exact ⟨this.1,
                      fun _ => this.2 (Dict.insert_ne_nil recs column cells)⟩
                  · rw [if_neg hlen] at h; cases h

theorem mosmix_fold_fail (units : UnitsModel) (n : ℕ) :
    ∀ (fcs : List (String × Option String)) (recs : Dict (List PyVal)),
      (∃ p ∈ fcs, (MOSMIX_ELEMENTS.get? p.1).isSome ∧
        ∃ s, p.2 = some s ∧ (splitWs s).length ≠ n) →
      isErr (mosmix_fold units n recs fcs) = true := by
  intro fcs
  induction fcs with
  | nil => intro recs hex; simp at hex
  | cons fc rest ih =>
      intro recs hex
      obtain ⟨p, hp, hsome, s, hval, hlen⟩ := hex
      rw [mosmix_fold]
      rcases List.mem_cons.mp hp with rfl | hmem
      · obtain ⟨col, hcol⟩ := Option.isSome_iff_exists.mp hsome
        rw [hcol, hval]
        simp only [epure_eq, ebind_ok]
        cases hcells : mosmix_parse_cells units col (splitWs s) with
        | error e => rw [ebind_error]; rfl
        | ok cells =>
            rw [ebind_ok]
            rw [if_neg (by
              rw [mosmix_parse_cells_length units col _ _ hcells]
              exact hlen)]
            rfl
      · cases hcol : MOSMIX_ELEMENTS.get? fc.1 with
        | none => exact ih recs ⟨p, hmem, hsome, s, hval, hlen⟩
        | some column =>
            cases hv : fc.2 with
            | none =>
                simp only []
                rw [ebind_error]
                rfl
            | some s0 =>
                simp only [epure_eq, ebind_ok]
                cases hcells : mosmix_parse_cells units column (splitWs s0) with
                | error e => rw [ebind_error]; rfl
                | ok cells =>
                    rw [ebind_ok]
                    by_cases hl : cells.length = n
                    · rw [if_pos hl]
                      exact ih _ ⟨p, hmem, hsome, s, hval, hlen⟩
                    · rw [if_neg hl]; rfl

end Dwdparse

namespace Dwdparse

theorem zipMany_length {α : Type} (Ls : List (List α)) :
    (zipMany Ls).length = minLen Ls := by
  simp [zipMany]

theorem minLen_const {α : Type} (n : ℕ) :
    ∀ (Ls : List (List α)), Ls ≠ [] → (∀ L ∈ Ls, L.length = n) →
      minLen Ls = n := by
  intro Ls hne hall
  cases Ls with
  | nil => exact absurd rfl hne
  | cons L rest =>
      rw [minLen]
      have hL : L.length = n := hall L (List.mem_cons_self _ _)
      have haux : ∀ (ls : List (List α)) (acc : ℕ), acc = n →
          (∀ x ∈ ls, x.length = n) →
          ls.foldl (fun m x => min m x.length) acc = n := by
        intro ls
        induction ls with
        | nil => intro acc hacc _; exact hacc
        | cons y ys ih =>
            intro acc hacc hys
            rw [List.foldl_cons]
            have hy : y.length = n := hys y (List.mem_cons_self _ _)
            have hmin : min acc y.length = n := by
              rw [hacc, hy]; exact min_self n
            exact ih _ hmin (fun x hx => hys x (List.mem_cons_of_mem _ hx))
      exact haux rest L.length hL
        (fun x hx => hall x (List.mem_cons_of_mem _ hx))

/-- C1: for a station with coordinates, a successful parse emits exactly
one record per timestamp in the document; and if any known element's
whitespace-separated value list has a length different from the timestamp
count, `parse_station` raises (the `assert` fails, or an earlier conversion
error aborts) — the whole decode fails rather than emitting records. -/
theorem mosmix_station_record_count (units : UnitsModel)
    (sic : StationIDConverter) (place : Placemark) (timestamps : List ℤ)
    (source : String) (ctext : String) (hc : place.coords = some ctext) :
    (∀ recs, parse_station units sic place timestamps source = .ok recs →
      recs.length = timestamps.length) ∧
    ((∃ p ∈ place.forecasts, (MOSMIX_ELEMENTS.get? p.1).isSome ∧
        ∃ s, p.2 = some s ∧ (splitWs s).length ≠ timestamps.length) →
      isErr (parse_station units sic place timestamps source) = true) := by
  constructor
  · intro recs hok
    rw [parse_station, hc] at hok
    simp only [] at hok
    split at hok
    case _ a b c heq =>
      simp only [epure_eq, ebind_ok] at hok
      cases hfold : mosmix_fold units timestamps.length
          [("timestamp", timestamps.map PyVal.time)] place.forecasts with
      | error e => rw [hfold, ebind_error] at hok; cases hok
      | ok records =>
          rw [hfold, ebind_ok] at hok
          split at hok
          case _ lat hlat =>
            split at hok
            case _ lon hlon =>
              split at hok
              case _ height hheight =>
                have hrecs := (Except.ok.inj hok).symm
                have halllen := mosmix_fold_alllen units timestamps.length
                  place.forecasts _ records hfold
                  (by
                    intro p hp
                    rcases List.mem_cons.mp hp with rfl | hm
                    · simp
                    · simp at hm)
                have hlen : minLen (records.map Prod.snd) =
                    timestamps.length := by
                  apply minLen_const
                  · intro hmapnil
                    exact (halllen.2 (by simp)) (List.map_eq_nil_iff.mp hmapnil)
                  · intro L hL
                    obtain ⟨p, hp, rfl⟩ := List.mem_map.mp hL
                    exact halllen.1 p hp
                rw [hrecs, List.length_map, zipMany_length, hlen]
              case _ => rw [ebind_error] at hok; cases hok
            case _ => rw [ebind_error] at hok; cases hok
          case _ => rw [ebind_error] at hok; cases hok
    case _ hne => rw [ebind_error] at hok; cases hok
  · intro hex
    rw [parse_station, hc]
    simp only []
    split
    case _ a b c heq =>
      simp only [epure_eq, ebind_ok]
      cases hfold : mosmix_fold units timestamps.length
          [("timestamp", timestamps.map PyVal.time)] place.forecasts with
      | error e => rw [ebind_error]; rfl
      | ok records =>
          exfalso
          have := mosmix_fold_fail units timestamps.length place.forecasts
            [("timestamp", timestamps.map PyVal.time)] hex
          rw [hfold] at this
          cases this
    case _ hne => rw [ebind_error]; rfl

end Dwdparse

namespace Dwdparse

/-- Witness for C1: a two-timestamp document yields exactly two records for
the well-formed station, and the station whose known element carries two
values against one timestamp makes the parse fail. -/
theorem mosmix_station_record_count_witness :
    mosmixGoodPlace.coords = some "1,2,3" ∧
    parse_station trivialUnits ⟨[], []⟩ mosmixGoodPlace
      ([100, 200] : List ℤ) "S" =
      .ok [[("observation_type", .str "forecast"), ("source", .str "S"),
            ("lat", .num 2), ("lon", .num 1), ("height", .num 3),
            ("dwd_station_id", .null), ("wmo_station_id", .str "P100"),
            ("station_name", .str "name"), ("timestamp", .time 100),
            ("temperature", .num 5)],
           [("observation_type", .str "forecast"), ("source", .str "S"),
            ("lat", .num 2), ("lon", .num 1), ("height", .num 3),
            ("dwd_station_id", .null), ("wmo_station_id", .str "P100"),
            ("station_name", .str "name"), ("timestamp", .time 200),
            ("temperature", .num 6)]] ∧
    ([[("observation_type", PyVal.str "forecast"), ("source", PyVal.str "S"),
        ("lat", PyVal.num 2), ("lon", PyVal.num 1), ("height", PyVal.num 3),
        ("dwd_station_id", PyVal.null), ("wmo_station_id", PyVal.str "P100"),
        ("station_name", PyVal.str "name"), ("timestamp", PyVal.time 100),
        ("temperature", PyVal.num 5)],
       [("observation_type", PyVal.str "forecast"), ("source", PyVal.str "S"),
        ("lat", PyVal.num 2), ("lon", PyVal.num 1), ("height", PyVal.num 3),
        ("dwd_station_id", PyVal.null), ("wmo_station_id", PyVal.str "P100"),
        ("station_name", PyVal.str "name"), ("timestamp", PyVal.time 200),
        ("temperature", PyVal.num 6)]] : List (Dict PyVal)).length =
      ([100, 200] : List ℤ).length ∧
    isErr (parse_station trivialUnits ⟨[], []⟩ mosmixMismatchPlace
      ([100] : List ℤ) "S") = true := by
  have hok : parse_station trivialUnits ⟨[], []⟩ mosmixGoodPlace
      ([100, 200] : List ℤ) "S" =
      .ok [[("observation_type", .str "forecast"), ("source", .str "S"),
            ("lat", .num 2), ("lon", .num 1), ("height", .num 3),
            ("dwd_station_id", .null), ("wmo_station_id", .str "P100"),
            ("station_name", .str "name"), ("timestamp", .time 100),
            ("temperature", .num 5)],
           [("observation_type", .str "forecast"), ("source", .str "S"),
            ("lat", .num 2), ("lon", .num 1), ("height", .num 3),
            ("dwd_station_id", .null), ("wmo_station_id", .str "P100"),
            ("station_name", .str "name"), ("timestamp", .time 200),
            ("temperature", .num 6)]] := by
    with_unfolding_all rfl
  refine ⟨rfl, hok, ?_, ?_⟩
  · exact (mosmix_station_record_count trivialUnits ⟨[], []⟩
      mosmixGoodPlace [100, 200] "S" "1,2,3" rfl).1 _ hok
  · exact (mosmix_station_record_count trivialUnits ⟨[], []⟩
      mosmixMismatchPlace [100] "S" "1,2,3" rfl).2
      ⟨("TTT", some "1 2"), by decide, by decide, "1 2", rfl, by decide⟩

end Dwdparse
